import Mathlib

/-!
Verification of the WardOps hospital-operations core.

This file is a shallow embedding of the WardOps backend core:

* `backend/app/simulation/engine.py` — the discrete-event simulation engine
  (`SimulationEngine`), embedded as a pure state-transition system over `ℚ`-valued
  virtual time.  Python's seeded `numpy` generator is modelled by its output
  stream `g : Nat → Nat` together with a call counter: a fixed seed yields a
  fixed stream, and every stochastic draw of the engine routes through it.
  The distributions themselves are abstracted (an exponential draw is a
  nonnegative rational computed from the stream, `integers(lo, hi)` is a value
  in `[lo, hi)` computed from the stream); only determinism, nonnegativity and
  the ranges matter for the verified properties.
* `backend/app/worker.py` — the `run_simulation_task` job runner over an
  in-memory relational state.
* `backend/app/api/websocket.py` — the replay delta computation
  (`get_replay_delta`) and the control-message handling of `replay_websocket`.

Python artefacts are embedded explicitly: `heapq` is translated operation by
operation (swap formulation of `_siftdown`/`_siftup`, which produces the same
arrays), insertion-ordered dicts become association lists, Python truthiness
(`if x:` on optionals that may hold `0`) becomes `truthyQ`/`truthyN`, and
Python `int()` (truncation toward zero) becomes `pyInt`.  Python `sorted`/
`list.sort` are stable; they are embedded as a stable insertion sort, which
agrees with any stable sort.  Loops whose termination is only probabilistic
(arrival generation, the main event loop) take explicit fuel; a run that
returns `some` is a completed run.
-/

set_option maxRecDepth 100000

namespace WardOps

/-- Python `int()` on a rational: truncation toward zero. -/
def pyInt (q : ℚ) : Int := if 0 ≤ q then ⌊q⌋ else -⌊-q⌋

/-- Python truthiness of an optional float: `None` and `0.0` are falsy. -/
def truthyQ : Option ℚ → Bool
  | none => false
  | some q => q != 0

/-- Python truthiness of an optional integer: `None` and `0` are falsy. -/
def truthyN : Option Nat → Bool
  | none => false
  | some n => n != 0

/-! Insertion-ordered dictionaries with `Nat` keys, as used for
`self.patients`: lookup returns the value of the first matching key,
assignment replaces in place or appends a fresh key at the end. -/

def dictGet {α : Type} (l : List (Nat × α)) (k : Nat) : Option α :=
  match l with
  | [] => none
  | (k', v) :: t => if k' = k then some v else dictGet t k

def dictSet {α : Type} (l : List (Nat × α)) (k : Nat) (v : α) : List (Nat × α) :=
  match l with
  | [] => [(k, v)]
  | (k', v') :: t => if k' = k then (k, v) :: t else (k', v') :: dictSet t k v

theorem dictGet_dictSet_self {α : Type} (l : List (Nat × α)) (k : Nat) (v : α) :
    dictGet (dictSet l k v) k = some v := by
  induction l with
  | nil => simp [dictGet, dictSet]
  | cons h t ih =>
    obtain ⟨k', v'⟩ := h
    by_cases hk : k' = k <;> simp [dictGet, dictSet, hk, ih]

theorem dictGet_dictSet_ne {α : Type} (l : List (Nat × α)) (k k' : Nat) (v : α)
    (h : k' ≠ k) : dictGet (dictSet l k v) k' = dictGet l k' := by
  induction l with
  | nil => simp [dictGet, dictSet, Ne.symm h]
  | cons hd t ih =>
    obtain ⟨k0, v0⟩ := hd
    by_cases hk : k0 = k
    · subst hk
      simp [dictGet, dictSet, Ne.symm h]
    · simp [dictGet, dictSet, hk, ih]

/-! Stable sorting.  Python's `sorted` and `list.sort` are stable; a stable
sort is uniquely determined by the comparison, so this insertion sort agrees
with the source's timsort. -/

def insertSorted {α : Type} (le : α → α → Bool) (x : α) : List α → List α
  | [] => [x]
  | y :: ys => if le x y then x :: y :: ys else y :: insertSorted le x ys

def insertionSort {α : Type} (le : α → α → Bool) : List α → List α
  | [] => []
  | a :: rest => insertSorted le a (insertionSort le rest)

theorem insertSorted_perm {α : Type} (le : α → α → Bool) (x : α) (l : List α) :
    (insertSorted le x l).Perm (x :: l) := by
  induction l with
  | nil => simp [insertSorted]
  | cons y ys ih =>
    by_cases h : le x y
    · simp [insertSorted, h]
    · simp only [insertSorted, h, Bool.false_eq_true, if_false]
      exact (ih.cons y).trans (List.Perm.swap x y ys)

theorem insertionSort_perm {α : Type} (le : α → α → Bool) (l : List α) :
    (insertionSort le l).Perm l := by
  induction l with
  | nil => simp [insertionSort]
  | cons a rest ih =>
    exact (insertSorted_perm le a (insertionSort le rest)).trans (ih.cons a)

/-! The event queue: CPython's `heapq` on a Python list, translated with the
swap formulation of `_siftdown`/`_siftup` (which yields the same arrays as
CPython's hold-aside formulation).  All call sites in the source use
`startpos = 0`.  Fuel bounds the loops; the fuel passed by `heappush`/`heappop`
(`length + 1`) strictly exceeds the number of iterations either loop can make,
so it never cuts a loop short. -/

def lget {α : Type} [Inhabited α] (l : List α) (i : Nat) : α := l.getD i default

def hswap {α : Type} [Inhabited α] (l : List α) (i j : Nat) : List α :=
  (l.set i (lget l j)).set j (lget l i)

theorem hswap_length {α : Type} [Inhabited α] (l : List α) (i j : Nat) :
    (hswap l i j).length = l.length := by
  simp [hswap]

theorem perm_cons_set {α : Type} (t : List α) (m : Nat) (hm : m < t.length) (a : α) :
    (t[m] :: t.set m a).Perm (a :: t) := by
  induction t generalizing m with
  | nil => simp at hm
  | cons b s ih =>
    cases m with
    | zero => simpa using List.Perm.swap a b s
    | succ m =>
      have hm' : m < s.length := by simpa using hm
      have step1 : (s[m] :: b :: s.set m a).Perm (b :: s[m] :: s.set m a) :=
        List.Perm.swap b s[m] _
      have step2 : (b :: s[m] :: s.set m a).Perm (b :: a :: s) := (ih m hm').cons b
      have step3 : (b :: a :: s).Perm (a :: b :: s) := List.Perm.swap a b s
      simpa using (step1.trans step2).trans step3

theorem hswap_perm {α : Type} [Inhabited α] (l : List α) (i j : Nat)
    (hi : i < l.length) (hj : j < l.length) : (hswap l i j).Perm l := by
  have hgj : lget l j = l[j] := by
    simp [lget, List.getD_eq_getElem?_getD, List.getElem?_eq_getElem hj]
  have hgi : lget l i = l[i] := by
    simp [lget, List.getD_eq_getElem?_getD, List.getElem?_eq_getElem hi]
  have hj2 : j < (l.set i (lget l j)).length := by simpa using hj
  have e : (l.set i (lget l j))[j] = lget l j := by
    rw [List.getElem_set]
    split <;> simp_all
  have h1 : ((l.set i (lget l j))[j] :: hswap l i j).Perm (lget l i :: l.set i (lget l j)) :=
    perm_cons_set (l.set i (lget l j)) j hj2 (lget l i)
  rw [e, hgi] at h1
  have h2 : (l[i] :: l.set i (lget l j)).Perm (lget l j :: l) := perm_cons_set l i hi (lget l j)
  exact ((h1.trans h2).cons_inv)

theorem hswap_mem {α : Type} [Inhabited α] {l : List α} {i j : Nat}
    (hi : i < l.length) (hj : j < l.length) {x : α} :
    x ∈ hswap l i j ↔ x ∈ l :=
  (hswap_perm l i j hi hj).mem_iff

/-- CPython `heapq._siftdown(heap, 0, pos)`: bubble the element at `pos` up
while it is strictly smaller than its parent. -/
def siftdownLoop {α : Type} [Inhabited α] (lt : α → α → Bool) :
    Nat → List α → Nat → List α
  | 0, l, _ => l
  | fuel + 1, l, pos =>
    if 0 < pos then
      let parentpos := (pos - 1) / 2
      if lt (lget l pos) (lget l parentpos) then
        siftdownLoop lt fuel (hswap l pos parentpos) parentpos
      else l
    else l

/-- CPython `heapq._siftup(heap, pos)` descent: walk the smaller-child path
(`childpos = rightpos` when `not heap[childpos] < heap[rightpos]`) down to a
leaf, swapping as it goes; returns the list and the final position. CPython
then bubbles back up with `_siftdown`, which `heappop` below performs. -/
def siftupLoop {α : Type} [Inhabited α] (lt : α → α → Bool) :
    Nat → List α → Nat → List α × Nat
  | 0, l, pos => (l, pos)
  | fuel + 1, l, pos =>
    let childpos := 2 * pos + 1
    if childpos < l.length then
      let childpos :=
        if childpos + 1 < l.length && !(lt (lget l childpos) (lget l (childpos + 1))) then
          childpos + 1
        else childpos
      siftupLoop lt fuel (hswap l pos childpos) childpos
    else (l, pos)

/-- CPython `heapq.heappush`: append, then sift down from the new last slot. -/
def heappush {α : Type} [Inhabited α] (lt : α → α → Bool) (l : List α) (e : α) : List α :=
  siftdownLoop lt (l.length + 1) (l ++ [e]) l.length

/-- CPython `heapq.heappop`: pop the last element; if the heap is still
non-empty, move it to the root and sift up (descend then bubble back). -/
def heappop {α : Type} [Inhabited α] (lt : α → α → Bool) (l : List α) :
    Option (α × List α) :=
  match l with
  | [] => none
  | _ :: _ =>
    let lastelt := lget l (l.length - 1)
    let rest := l.dropLast
    if rest.isEmpty then some (lastelt, rest)
    else
      let ret := lget rest 0
      let rest1 := rest.set 0 lastelt
      let sifted := siftupLoop lt (rest1.length + 1) rest1 0
      some (ret, siftdownLoop lt (sifted.2 + 1) sifted.1 sifted.2)

theorem siftdownLoop_perm {α : Type} [Inhabited α] (lt : α → α → Bool) :
    ∀ (fuel : Nat) (l : List α) (pos : Nat), pos < l.length →
      (siftdownLoop lt fuel l pos).Perm l := by
  intro fuel
  induction fuel with
  | zero => intro l pos _; simp [siftdownLoop]
  | succ fuel ih =>
    intro l pos hpos
    unfold siftdownLoop
    by_cases h0 : 0 < pos
    · simp only [h0, if_true]
      by_cases hlt : lt (lget l pos) (lget l ((pos - 1) / 2))
      · simp only [hlt, if_true]
        have hpp : (pos - 1) / 2 < l.length :=
          Nat.lt_of_le_of_lt (Nat.le_trans (Nat.div_le_self _ _) (by omega)) hpos
        have hlen : (pos - 1) / 2 < (hswap l pos ((pos - 1) / 2)).length := by
          rw [hswap_length]; exact hpp
        exact (ih (hswap l pos ((pos - 1) / 2)) ((pos - 1) / 2) hlen).trans
          (hswap_perm l pos ((pos - 1) / 2) hpos hpp)
      · simp [hlt]
    · simp [h0]

theorem siftupLoop_perm {α : Type} [Inhabited α] (lt : α → α → Bool) :
    ∀ (fuel : Nat) (l : List α) (pos : Nat), pos < l.length →
      (siftupLoop lt fuel l pos).1.Perm l ∧
        (siftupLoop lt fuel l pos).2 < (siftupLoop lt fuel l pos).1.length := by
  intro fuel
  induction fuel with
  | zero => intro l pos hpos; simpa [siftupLoop] using hpos
  | succ fuel ih =>
    intro l pos hpos
    unfold siftupLoop
    by_cases hc : 2 * pos + 1 < l.length
    · simp only [hc, if_true]
      set childpos :=
        if 2 * pos + 1 + 1 < l.length && !(lt (lget l (2 * pos + 1)) (lget l (2 * pos + 1 + 1)))
        then 2 * pos + 1 + 1 else 2 * pos + 1 with hchild
      have hcp : childpos < l.length := by
        rw [hchild]; split
        · rename_i hb
          exact (Bool.and_eq_true _ _ ▸ hb).1 |> of_decide_eq_true
        · exact hc
      have hlen : childpos < (hswap l pos childpos).length := by
        rw [hswap_length]; exact hcp
      obtain ⟨p1, p2⟩ := ih (hswap l pos childpos) childpos hlen
      exact ⟨p1.trans (hswap_perm l pos childpos hpos hcp), p2⟩
    · simpa [hc] using hpos

theorem heappush_perm {α : Type} [Inhabited α] (lt : α → α → Bool) (l : List α) (e : α) :
    (heappush lt l e).Perm (e :: l) := by
  have h1 : l.length < (l ++ [e]).length := by simp
  exact (siftdownLoop_perm lt (l.length + 1) (l ++ [e]) l.length h1).trans
    (List.perm_append_singleton e l)

theorem heappop_perm {α : Type} [Inhabited α] (lt : α → α → Bool) (l : List α)
    (e : α) (l' : List α) (h : heappop lt l = some (e, l')) : l.Perm (e :: l') := by
  match l with
  | [] => simp [heappop] at h
  | a :: t =>
    simp only [heappop] at h
    split at h
    · rename_i hrest
      rw [Option.some.injEq, Prod.mk.injEq] at h
      obtain ⟨he, hl'⟩ := h
      subst he
      subst hl'
      have ht : t = [] := by
        cases t with
        | nil => rfl
        | cons b s => simp at hrest
      subst ht
      simp [lget]
    · rename_i hrest
      rw [Option.some.injEq, Prod.mk.injEq] at h
      obtain ⟨he, hl'⟩ := h
      subst he
      subst hl'
      have hne : (a :: t).dropLast ≠ [] := fun hh => by simp [hh] at hrest
      obtain ⟨r0, rt, hr⟩ : ∃ r0 rt, (a :: t).dropLast = r0 :: rt := by
        cases hrest2 : (a :: t).dropLast with
        | nil => exact absurd hrest2 hne
        | cons r0 rt => exact ⟨r0, rt, rfl⟩
      have hlastval : lget (a :: t) ((a :: t).length - 1) = (a :: t).getLast (by simp) := by
        rw [lget, List.getD_eq_getElem?_getD, List.getElem?_eq_getElem (by simp),
          List.getLast_eq_getElem]
        simp
      have hdecomp : a :: t =
          (a :: t).dropLast ++ [lget (a :: t) ((a :: t).length - 1)] := by
        rw [hlastval]
        exact (List.dropLast_append_getLast (by simp)).symm
      have hget0 : lget ((a :: t).dropLast) 0 = r0 := by rw [hr]; simp [lget]
      have hrest1 : ((a :: t).dropLast).set 0 (lget (a :: t) ((a :: t).length - 1)) =
          lget (a :: t) ((a :: t).length - 1) :: rt := by rw [hr]; simp
      have h0 : (0 : Nat) <
          (((a :: t).dropLast).set 0 (lget (a :: t) ((a :: t).length - 1))).length := by
        rw [hrest1]; simp
      set S := siftupLoop lt
        ((((a :: t).dropLast).set 0 (lget (a :: t) ((a :: t).length - 1))).length + 1)
        (((a :: t).dropLast).set 0 (lget (a :: t) ((a :: t).length - 1))) 0 with hS
      obtain ⟨pp, hp2⟩ := siftupLoop_perm lt
        ((((a :: t).dropLast).set 0 (lget (a :: t) ((a :: t).length - 1))).length + 1)
        (((a :: t).dropLast).set 0 (lget (a :: t) ((a :: t).length - 1))) 0 h0
      rw [← hS] at pp hp2
      have hQ : (siftdownLoop lt (S.2 + 1) S.1 S.2).Perm
          (lget (a :: t) ((a :: t).length - 1) :: rt) :=
        ((siftdownLoop_perm lt (S.2 + 1) S.1 S.2 hp2).trans pp).trans (by rw [hrest1])
      rw [hget0]
      refine (hdecomp ▸ ?_)
      have hstep : ((r0 :: rt) ++ [lget (a :: t) ((a :: t).length - 1)]).Perm
          (r0 :: lget (a :: t) ((a :: t).length - 1) :: rt) :=
        List.Perm.cons r0 (List.perm_append_singleton _ rt)
      rw [hr]
      exact hstep.trans ((hQ.symm).cons r0)

theorem heappush_mem {α : Type} [Inhabited α] (lt : α → α → Bool) (l : List α)
    (e x : α) : x ∈ heappush lt l e ↔ (x = e ∨ x ∈ l) := by
  rw [(heappush_perm lt l e).mem_iff]
  simp

/-! The simulation engine (`backend/app/simulation/engine.py`).

`np.random.default_rng(seed)` together with `random.seed(seed)` make every
stochastic draw a pure function of the seed.  The seeded generator is
modelled by its output stream `g : Nat → Nat` and a call counter `rngIdx`
threaded through the engine state; each draw consumes one stream value. -/

/-- numpy `Generator.integers(lo, hi)`: a uniform draw on `[lo, hi)` computed
from the stream; returns the value and the advanced counter. -/
def rngIntegers (g : Nat → Nat) (i lo hi : Nat) : Nat × Nat :=
  (lo + g i % (hi - lo), i + 1)

/-- numpy `Generator.random()`: a uniform draw in `[0, 1)`. -/
def rngRandom (g : Nat → Nat) (i : Nat) : ℚ × Nat :=
  (((g i % 1000 : Nat) : ℚ) / 1000, i + 1)

/-- numpy `Generator.exponential(mean)`: a nonnegative draw with scale `mean`.
The distribution is abstracted; only determinism and nonnegativity matter. -/
def rngExponential (g : Nat → Nat) (i : Nat) (mean : ℚ) : ℚ × Nat :=
  (mean * ((g i % 2048 : Nat) : ℚ) / 2, i + 1)

inductive Acuity
  | low | medium | high | critical
deriving DecidableEq, Inhabited, Repr

/-- numpy `Generator.choice(items, p)`: an element of `items` picked from the
stream (the weights only shape the distribution, which is abstracted). -/
def rngChoice (g : Nat → Nat) (i : Nat) (items : List Acuity) : Acuity × Nat :=
  (items.getD (g i % items.length) Acuity.medium, i + 1)

inductive SimEventType
  | arrival | triage_start | triage_end | bed_request | bed_assigned
  | imaging_request | imaging_start | imaging_end
  | consult_request | consult_end | discharge | cleaning_start | cleaning_end
deriving DecidableEq, Inhabited, Repr

/-- The payload dict of a `SimEvent`: arrival events carry acuity and the two
requirement flags, cleaning events carry `bed_id`; absent keys are `none`. -/
structure EventData where
  acuity : Option Acuity := none
  requires_imaging : Option Bool := none
  requires_consult : Option Bool := none
  bed_id : Option Nat := none
deriving DecidableEq, Inhabited, Repr

/-- `SimEvent` dataclass.  `order=True` with `compare=False` on every field
except `time`: heap comparisons look at `time` only (see `SimEvent.lt`). -/
structure SimEvent where
  time : ℚ
  event_type : SimEventType
  entity_id : Nat
  data : EventData := {}
deriving DecidableEq, Inhabited, Repr

def SimEvent.lt (a b : SimEvent) : Bool := decide (a.time < b.time)

structure SimPatient where
  id : Nat
  acuity : Acuity
  arrival_time : ℚ
  requires_imaging : Bool := false
  requires_consult : Bool := false
  triage_time : Option ℚ := none
  bed_assigned_time : Option ℚ := none
  imaging_start_time : Option ℚ := none
  imaging_end_time : Option ℚ := none
  discharge_time : Option ℚ := none
  bed_id : Option Nat := none
  nurse_id : Option Nat := none
deriving DecidableEq, Inhabited, Repr

structure SimBed where
  id : Nat
  bed_type : String := "standard"
  is_occupied : Bool := false
  is_cleaning : Bool := false
  patient_id : Option Nat := none
  available_at : ℚ := 0
deriving DecidableEq, Inhabited, Repr

structure SimNurse where
  id : Nat
  max_patients : Nat := 4
  assigned_patients : List Nat := []
  shift_start : ℚ := 0
  shift_end : ℚ := 480
deriving DecidableEq, Inhabited, Repr

/-- The dict appended by `_handle_discharge` to `self.patient_outcomes`. -/
structure PatientOutcome where
  patient_id : Nat
  acuity : Acuity
  wait_time : Option ℚ
  los : Option ℚ
  had_imaging : Bool
  imaging_delay : Option ℚ
deriving DecidableEq, Inhabited, Repr

/-- A record appended to `self.bottleneck_events`; bed/imaging denials carry
`queue_length`, nurse denials carry `description`. -/
structure BottleneckRecord where
  time : ℚ
  constraint : String
  patient_id : Nat
  queue_length : Option Nat := none
  description : Option String := none
deriving DecidableEq, Inhabited, Repr

/-- The recognized scenario-parameter fields (`parameters.get(key, default)`);
`none` means the key is absent and the engine default applies.
`nurse_count_day` stands for `parameters.get("nurse_count", {}).get("day", 6)`. -/
structure Params where
  arrival_multiplier : Option ℚ := none
  acuity_mix : Option (List (Acuity × ℚ)) := none
  beds_available : Option Nat := none
  nurse_count_day : Option Nat := none
  imaging_capacity : Option ℚ := none
  transport_capacity : Option ℚ := none
deriving DecidableEq, Inhabited, Repr

/-- `self.end_time = 24 * 60`, set in `__init__` and never reassigned. -/
def horizonEnd : ℚ := 24 * 60

/-- The mutable attributes of `SimulationEngine`.  Dicts keyed by id
(`self.patients`, `self.beds`, `self.nurses`) are insertion-ordered; `beds`
and `nurses` are only iterated and updated in place, so they are plain lists
in id order, while `patients` is an association list.  The five timeseries
lists are the keys the engine ever appends to `self.timeseries`. -/
structure EngineState where
  params : Params
  rngIdx : Nat := 0
  currentTime : ℚ := 0
  eventQueue : List SimEvent := []
  patients : List (Nat × SimPatient) := []
  beds : List SimBed := []
  nurses : List SimNurse := []
  bedQueue : List Nat := []
  imagingQueue : List Nat := []
  transportQueue : List Nat := []
  imagingCapacity : Int := 0
  imagingInUse : Int := 0
  transportCapacity : Int := 0
  transportInUse : Int := 0
  patientCounter : Nat := 0
  tsTime : List ℚ := []
  tsOccupancy : List ℚ := []
  tsBedQueue : List Nat := []
  tsImagingQueue : List Nat := []
  tsNurseLoad : List ℚ := []
  patientOutcomes : List PatientOutcome := []
  bottleneckEvents : List BottleneckRecord := []
deriving DecidableEq, Inhabited, Repr

/-- `__init__` plus `_initialize_resources`: capacities are
`int(parameters.get(key, 1.0) * 2)`; beds `1..N` with positions `1` and `N`
isolation; nurses `1..M` with `M = nurse_count.day`. -/
def initState (params : Params) : EngineState :=
  let numBeds := params.beds_available.getD 24
  let nurseCount := params.nurse_count_day.getD 6
  { params := params
    imagingCapacity := pyInt (params.imaging_capacity.getD 1 * 2)
    transportCapacity := pyInt (params.transport_capacity.getD 1 * 2)
    beds := (List.range' 1 numBeds).map fun i =>
      { id := i, bed_type := if i = 1 ∨ i = numBeds then "isolation" else "standard" }
    nurses := (List.range' 1 nurseCount).map fun i => { id := i } }

def defaultAcuityMix : List (Acuity × ℚ) :=
  [(.low, 3/10), (.medium, 1/2), (.high, 3/20), (.critical, 1/20)]

/-- The while-loop of `_generate_arrivals`: draw an exponential inter-arrival
time, stop once the running arrival time reaches the horizon, otherwise draw
acuity and the two requirement flags and push the arrival event. -/
def generateArrivals (g : Nat → Nat) :
    Nat → EngineState → ℚ → ℚ → List Acuity → EngineState
  | 0, s, _, _, _ => s
  | fuel + 1, s, currentArrival, arrivalRate, mixKeys =>
    if currentArrival < horizonEnd then
      let drawn := rngExponential g s.rngIdx (60 / arrivalRate)
      let ca := currentArrival + drawn.1
      if horizonEnd ≤ ca then { s with rngIdx := drawn.2 }
      else
        let counter := s.patientCounter + 1
        let ac := rngChoice g drawn.2 mixKeys
        let rImg := rngRandom g ac.2
        let rCon := rngRandom g rImg.2
        let ev : SimEvent :=
          { time := ca
            event_type := .arrival
            entity_id := counter
            data := { acuity := some ac.1
                      requires_imaging := some (decide (rImg.1 < (2/5 : ℚ)))
                      requires_consult := some (decide (rCon.1 < (1/4 : ℚ))) } }
        generateArrivals g fuel
          { s with
            rngIdx := rCon.2
            patientCounter := counter
            eventQueue := heappush SimEvent.lt s.eventQueue ev }
          ca arrivalRate mixKeys
    else s

/-- `_generate_arrivals`: rate `12.5 * arrival_multiplier` per hour, mix keys
in insertion order of the `acuity_mix` dict. -/
def runGenerateArrivals (g : Nat → Nat) (fuel : Nat) (s : EngineState) : EngineState :=
  let arrivalRate := (25/2 : ℚ) * s.params.arrival_multiplier.getD 1
  let mix := s.params.acuity_mix.getD defaultAcuityMix
  generateArrivals g fuel s 0 arrivalRate (mix.map Prod.fst)

def updateBed (beds : List SimBed) (bid : Nat) (f : SimBed → SimBed) : List SimBed :=
  beds.map fun b => if b.id = bid then f b else b

def updateNurse (nurses : List SimNurse) (nid : Nat) (f : SimNurse → SimNurse) :
    List SimNurse :=
  nurses.map fun n => if n.id = nid then f n else n

/-- The availability test of `_request_bed`:
`not bed.is_occupied and not bed.is_cleaning and bed.available_at <= time`. -/
def bedFree (b : SimBed) (t : ℚ) : Bool :=
  !b.is_occupied && !b.is_cleaning && decide (b.available_at ≤ t)

/-- The selection loop of `_assign_nurse`: lowest current load strictly below
`max_patients`, first (lowest-id) nurse winning ties. -/
def pickNurse (nurses : List SimNurse) : Option SimNurse :=
  nurses.foldl
    (fun acc n =>
      let load := n.assigned_patients.length
      match acc with
      | none => if load < n.max_patients then some n else none
      | some best =>
        if load < n.max_patients ∧ load < best.assigned_patients.length then some n
        else acc)
    none

/-- `_assign_nurse`: append to the chosen nurse and stamp `patient.nurse_id`,
or log a `nurse_staffing` bottleneck (no queue length). -/
def assignNurse (s : EngineState) (p : SimPatient) (t : ℚ) :
    EngineState × SimPatient :=
  match pickNurse s.nurses with
  | some best =>
    ({ s with nurses := updateNurse s.nurses best.id fun n =>
        { n with assigned_patients := n.assigned_patients ++ [p.id] } },
     { p with nurse_id := some best.id })
  | none =>
    ({ s with bottleneckEvents := s.bottleneckEvents ++
        [{ time := t
           constraint := "nurse_staffing"
           patient_id := p.id
           description := some "All nurses at max capacity" }] }, p)

/-- `los_ranges` table; `.get(acuity, (240, 720))` never falls through since
all four acuities are keys. -/
def losRanges : Acuity → Nat × Nat
  | .low => (120, 360)
  | .medium => (240, 720)
  | .high => (480, 1440)
  | .critical => (720, 2880)

/-- `_assign_bed`: occupy the bed, stamp the patient, assign a nurse,
schedule `imaging_request` at `t + U{15..44}` when required, and schedule
`discharge` at `t + los` only when that falls before the horizon. -/
def assignBed (g : Nat → Nat) (s : EngineState) (p : SimPatient) (bid : Nat)
    (t : ℚ) : EngineState :=
  let s1 := { s with beds := updateBed s.beds bid fun b =>
    { b with is_occupied := true, patient_id := some p.id } }
  let p1 := { p with bed_id := some bid, bed_assigned_time := some t }
  let snp := assignNurse s1 p1 t
  let s2 := snp.1
  let p2 := snp.2
  let s3 :=
    if p2.requires_imaging then
      let d := rngIntegers g s2.rngIdx 15 45
      { s2 with
        rngIdx := d.2
        eventQueue := heappush SimEvent.lt s2.eventQueue
          { time := t + d.1, event_type := .imaging_request, entity_id := p2.id } }
    else s2
  let range := losRanges p2.acuity
  let los := rngIntegers g s3.rngIdx range.1 range.2
  let s4 := { s3 with rngIdx := los.2 }
  let s5 :=
    if t + (los.1 : ℚ) < horizonEnd then
      { s4 with
        eventQueue := heappush SimEvent.lt s4.eventQueue
          { time := t + los.1, event_type := .discharge, entity_id := p2.id } }
    else s4
  { s5 with patients := dictSet s5.patients p2.id p2 }

/-- `_request_bed`: first free bed in id order, else enqueue at the tail of
the bed-wait FIFO and log a `bed_availability` bottleneck carrying the queue
length after the append. -/
def requestBed (g : Nat → Nat) (s : EngineState) (patientId : Nat) (t : ℚ) :
    Option EngineState :=
  match dictGet s.patients patientId with
  | none => none
  | some p =>
    match s.beds.find? (fun b => bedFree b t) with
    | some bed => some (assignBed g s p bed.id t)
    | none =>
      let q := s.bedQueue ++ [patientId]
      some { s with
        bedQueue := q
        bottleneckEvents := s.bottleneckEvents ++
          [{ time := t
             constraint := "bed_availability"
             patient_id := patientId
             queue_length := some q.length }] }

/-- `_handle_arrival`: create the patient record and schedule `triage_end` at
`now + U{5..14}`. -/
def handleArrival (g : Nat → Nat) (s : EngineState) (ev : SimEvent) :
    Option EngineState :=
  match ev.data.acuity, ev.data.requires_imaging, ev.data.requires_consult with
  | some ac, some ri, some rc =>
    let p : SimPatient :=
      { id := ev.entity_id
        acuity := ac
        arrival_time := ev.time
        requires_imaging := ri
        requires_consult := rc }
    let s1 := { s with patients := dictSet s.patients p.id p }
    let d := rngIntegers g s1.rngIdx 5 15
    some { s1 with
      rngIdx := d.2
      eventQueue := heappush SimEvent.lt s1.eventQueue
        { time := ev.time + d.1, event_type := .triage_end, entity_id := p.id } }
  | _, _, _ => none

/-- `_handle_triage_end`: stamp `triage_time` and request a bed. -/
def handleTriageEnd (g : Nat → Nat) (s : EngineState) (ev : SimEvent) :
    Option EngineState :=
  match dictGet s.patients ev.entity_id with
  | none => none
  | some p =>
    let p1 := { p with triage_time := some ev.time }
    let s1 := { s with patients := dictSet s.patients p1.id p1 }
    requestBed g s1 p1.id ev.time

/-- `_handle_imaging_request`: start imaging when a slot is free (stamp
`imaging_start_time`, schedule `imaging_end` at `now + U{20..59}`), else
enqueue and log an `imaging_capacity` bottleneck. -/
def handleImagingRequest (g : Nat → Nat) (s : EngineState) (ev : SimEvent) :
    Option EngineState :=
  if s.imagingInUse < s.imagingCapacity then
    match dictGet s.patients ev.entity_id with
    | none => none
    | some p =>
      let d := rngIntegers g s.rngIdx 20 60
      some { s with
        imagingInUse := s.imagingInUse + 1
        rngIdx := d.2
        eventQueue := heappush SimEvent.lt s.eventQueue
          { time := ev.time + d.1, event_type := .imaging_end, entity_id := ev.entity_id }
        patients := dictSet s.patients ev.entity_id
          { p with imaging_start_time := some ev.time } }
  else
    let q := s.imagingQueue ++ [ev.entity_id]
    some { s with
      imagingQueue := q
      bottleneckEvents := s.bottleneckEvents ++
        [{ time := ev.time
           constraint := "imaging_capacity"
           patient_id := ev.entity_id
           queue_length := some q.length }] }

/-- `_handle_imaging_end`: stamp `imaging_end_time`, release the slot; if
waiters exist, dequeue the head, re-acquire, schedule its `imaging_end` at
`now + U{20..59}` and stamp its `imaging_start_time = now`. -/
def handleImagingEnd (g : Nat → Nat) (s : EngineState) (ev : SimEvent) :
    Option EngineState :=
  match dictGet s.patients ev.entity_id with
  | none => none
  | some p =>
    let s1 := { s with
      patients := dictSet s.patients ev.entity_id
        { p with imaging_end_time := some ev.time }
      imagingInUse := s.imagingInUse - 1 }
    match s1.imagingQueue with
    | [] => some s1
    | nextId :: restQ =>
      match dictGet s1.patients nextId with
      | none => none
      | some np =>
        let d := rngIntegers g s1.rngIdx 20 60
        some { s1 with
          imagingQueue := restQ
          imagingInUse := s1.imagingInUse + 1
          rngIdx := d.2
          eventQueue := heappush SimEvent.lt s1.eventQueue
            { time := ev.time + d.1, event_type := .imaging_end, entity_id := nextId }
          patients := dictSet s1.patients nextId
            { np with imaging_start_time := some ev.time } }

/-- The outcome dict of `_handle_discharge`, with Python truthiness on the
optional timestamps (`x if cond else None`). -/
def mkOutcome (p : SimPatient) : PatientOutcome :=
  { patient_id := p.id
    acuity := p.acuity
    wait_time :=
      if truthyQ p.bed_assigned_time then
        some (p.bed_assigned_time.getD 0 - p.arrival_time)
      else none
    los :=
      if truthyQ p.discharge_time then some (p.discharge_time.getD 0 - p.arrival_time)
      else none
    had_imaging := p.requires_imaging
    imaging_delay :=
      if truthyQ p.imaging_start_time && truthyQ p.bed_assigned_time then
        some (p.imaging_start_time.getD 0 - p.bed_assigned_time.getD 0)
      else none }

/-- The `Free bed` block of `_handle_discharge` (guarded by `if
patient.bed_id:`): mark the bed cleaning and schedule `cleaning_end` at
`now + U{15..29}`; `none` is the `KeyError` on a dangling bed id. -/
def freeBedOnDischarge (g : Nat → Nat) (s1 : EngineState) (p : SimPatient)
    (t : ℚ) : Option EngineState :=
  if truthyN p.bed_id then
    match s1.beds.find? (fun b => b.id == p.bed_id.getD 0) with
    | none => none
    | some _ =>
      let s2 := { s1 with beds := updateBed s1.beds (p.bed_id.getD 0) fun b =>
        { b with is_occupied := false, is_cleaning := true, patient_id := none } }
      let ct := rngIntegers g s2.rngIdx 15 30
      some { s2 with
        rngIdx := ct.2
        eventQueue := heappush SimEvent.lt s2.eventQueue
          { time := t + ct.1
            event_type := .cleaning_end
            entity_id := p.bed_id.getD 0
            data := { bed_id := some (p.bed_id.getD 0) } } }
  else some s1

/-- The `Free nurse` block of `_handle_discharge` (guarded by `if
patient.nurse_id:`): drop the patient from the nurse's assignment list. -/
def freeNurseOnDischarge (s3 : EngineState) (p : SimPatient) :
    Option EngineState :=
  if truthyN p.nurse_id then
    match s3.nurses.find? (fun n => n.id == p.nurse_id.getD 0) with
    | none => none
    | some _ =>
      some { s3 with nurses := updateNurse s3.nurses (p.nurse_id.getD 0) fun n =>
        { n with assigned_patients := n.assigned_patients.erase p.id } }
  else some s3

/-- `_handle_discharge`: stamp `discharge_time`; free the bed (mark cleaning
and schedule `cleaning_end` at `now + U{15..29}`); release the nurse
assignment; append the patient outcome. -/
def handleDischarge (g : Nat → Nat) (s : EngineState) (ev : SimEvent) :
    Option EngineState :=
  match dictGet s.patients ev.entity_id with
  | none => none
  | some p0 =>
    let p := { p0 with discharge_time := some ev.time }
    let s1 := { s with patients := dictSet s.patients p.id p }
    match freeBedOnDischarge g s1 p ev.time with
    | none => none
    | some s3 =>
      match freeNurseOnDischarge s3 p with
      | none => none
      | some s4 =>
        some { s4 with patientOutcomes := s4.patientOutcomes ++ [mkOutcome p] }

/-- `_handle_cleaning_end`: clear the cleaning flag, set `available_at`, and
hand the bed to the head of the bed-wait FIFO when one exists. -/
def handleCleaningEnd (g : Nat → Nat) (s : EngineState) (ev : SimEvent) :
    Option EngineState :=
  match ev.data.bed_id with
  | none => none
  | some bid =>
    match s.beds.find? (fun b => b.id == bid) with
    | none => none
    | some _ =>
      let s1 := { s with beds := updateBed s.beds bid fun b =>
        { b with is_cleaning := false, available_at := ev.time } }
      match s1.bedQueue with
      | [] => some s1
      | pid :: restQ =>
        match dictGet s1.patients pid with
        | none => none
        | some p => some (assignBed g { s1 with bedQueue := restQ } p bid ev.time)

/-- `_process_event`: the handler dispatch table; kinds without a handler are
ignored. -/
def processEvent (g : Nat → Nat) (s : EngineState) (ev : SimEvent) :
    Option EngineState :=
  match ev.event_type with
  | .arrival => handleArrival g s ev
  | .triage_end => handleTriageEnd g s ev
  | .imaging_request => handleImagingRequest g s ev
  | .imaging_end => handleImagingEnd g s ev
  | .discharge => handleDischarge g s ev
  | .cleaning_end => handleCleaningEnd g s ev
  | _ => some s

/-- `np.mean`; every call site guards against the empty list. -/
def meanQ (l : List ℚ) : ℚ := l.sum / l.length

/-- Python `max` on a nonempty list; call sites guard emptiness. -/
def maxQ : List ℚ → ℚ
  | [] => 0
  | a :: t => t.foldl max a

/-- `np.median`: middle of the ascending sort, or the mean of the two middle
elements for even length. -/
def medianQ (l : List ℚ) : ℚ :=
  let sorted := insertionSort (fun a b => decide (a ≤ b)) l
  let n := sorted.length
  if n % 2 = 1 then lget sorted (n / 2)
  else (lget sorted (n / 2 - 1) + lget sorted (n / 2)) / 2

/-- `_collect_metrics`: append occupancy (percent), queue lengths and mean
nurse load at the current time. -/
def collectMetrics (s : EngineState) : EngineState :=
  let occupied := (s.beds.filter (fun b => b.is_occupied)).length
  let total := s.beds.length
  let occ : ℚ := if 0 < total then (occupied : ℚ) / (total : ℚ) * 100 else 0
  let load : ℚ :=
    if s.nurses.isEmpty then 0
    else meanQ (s.nurses.map fun n => (n.assigned_patients.length : ℚ))
  { s with
    tsTime := s.tsTime ++ [s.currentTime]
    tsOccupancy := s.tsOccupancy ++ [occ]
    tsBedQueue := s.tsBedQueue ++ [s.bedQueue.length]
    tsImagingQueue := s.tsImagingQueue ++ [s.imagingQueue.length]
    tsNurseLoad := s.tsNurseLoad ++ [load] }

/-- The main loop of `run`: pop the earliest event, advance the clock,
dispatch, collect metrics when at least 15 virtual minutes have passed since
the last sample, and report progress whenever `int(now / end_time * 100)`
advances.  The accumulator records each `(now, progress)` pair passed to the
progress callback, newest first.  A `none` result is a run that did not
complete (an engine fault, or fuel exhaustion — an artefact of the shallow
embedding). -/
def runLoop (g : Nat → Nat) :
    Nat → EngineState → ℚ → Int → List (ℚ × Int) →
      Option (EngineState × List (ℚ × Int))
  | 0, s, _, _, acc => if s.eventQueue.isEmpty then some (s, acc.reverse) else none
  | fuel + 1, s, lastMetric, lastProgress, acc =>
    match heappop SimEvent.lt s.eventQueue with
    | none => some (s, acc.reverse)
    | some evq =>
      let s1 := { s with eventQueue := evq.2, currentTime := evq.1.time }
      match processEvent g s1 evq.1 with
      | none => none
      | some s2 =>
        let doCollect := decide (15 ≤ s2.currentTime - lastMetric)
        let s3 := if doCollect then collectMetrics s2 else s2
        let lm := if doCollect then s3.currentTime else lastMetric
        let progress := pyInt (s3.currentTime / horizonEnd * 100)
        if lastProgress < progress then
          runLoop g fuel s3 lm progress ((s3.currentTime, progress) :: acc)
        else
          runLoop g fuel s3 lm lastProgress acc

/-- One entry of `_calculate_results`' ranked bottleneck list. -/
structure BottleneckSummary where
  constraint : String
  impact_score : ℚ
  occurrences : Nat
  avg_queue : ℚ
  description : String
deriving DecidableEq, Inhabited, Repr

/-- `_describe_bottleneck`. -/
def describeBottleneck (c : String) : String :=
  if c = "bed_availability" then "Insufficient bed capacity causing patient wait times"
  else if c = "nurse_staffing" then "Nurse staffing ratios exceeded, delaying patient care"
  else if c = "imaging_capacity" then "Imaging equipment utilization at maximum capacity"
  else if c = "transport_capacity" then "Transport resources insufficient for demand"
  else "Constraint: " ++ c

/-- One fold step of the `defaultdict` bottleneck summary: group by
constraint in first-occurrence order, counting records and summing the
`queue_length` of records that carry one. -/
def addBottleneck (acc : List (String × Nat × Nat)) (b : BottleneckRecord) :
    List (String × Nat × Nat) :=
  match acc with
  | [] => [(b.constraint, 1, b.queue_length.getD 0)]
  | (c, cnt, tot) :: rest =>
    if c = b.constraint then (c, cnt + 1, tot + b.queue_length.getD 0) :: rest
    else (c, cnt, tot) :: addBottleneck rest b

def summarizeBottlenecks (evs : List BottleneckRecord) : List (String × Nat × Nat) :=
  evs.foldl addBottleneck []

/-- The value of `SimulationEngine.run`: summary metrics, the five
timeseries arrays, and the ranked bottleneck list. -/
structure RunResult where
  metrics_total_patients : Nat
  metrics_avg_wait_time_minutes : ℚ
  metrics_median_wait_time_minutes : ℚ
  metrics_max_wait_time_minutes : ℚ
  metrics_avg_los_minutes : ℚ
  metrics_sla_breaches : Nat
  metrics_avg_occupancy : ℚ
  metrics_peak_occupancy : ℚ
  metrics_avg_nurse_load : ℚ
  tsTime : List ℚ
  tsOccupancy : List ℚ
  tsBedQueue : List Nat
  tsImagingQueue : List Nat
  tsNurseLoad : List ℚ
  bottlenecks : List BottleneckSummary
deriving DecidableEq, Inhabited, Repr

/-- `_calculate_results`: aggregate outcomes, group and rank bottlenecks by
`impact_score = occurrences / max(total_patients, 1)` (stable descending
sort, top 5). -/
def calculateResults (s : EngineState) : RunResult :=
  let waits := s.patientOutcomes.filterMap (fun o => o.wait_time)
  let losList := s.patientOutcomes.filterMap (fun o => o.los)
  let summary := summarizeBottlenecks s.bottleneckEvents
  let ranked := summary.map fun cct =>
    { constraint := cct.1
      impact_score := (cct.2.1 : ℚ) / (max s.patientOutcomes.length 1 : ℚ)
      occurrences := cct.2.1
      avg_queue := if 0 < cct.2.1 then (cct.2.2 : ℚ) / (cct.2.1 : ℚ) else 0
      description := describeBottleneck cct.1 : BottleneckSummary }
  let sortedB := insertionSort (fun a b => decide (b.impact_score ≤ a.impact_score)) ranked
  { metrics_total_patients := s.patientOutcomes.length
    metrics_avg_wait_time_minutes := if waits.isEmpty then 0 else meanQ waits
    metrics_median_wait_time_minutes := if waits.isEmpty then 0 else medianQ waits
    metrics_max_wait_time_minutes := if waits.isEmpty then 0 else maxQ waits
    metrics_avg_los_minutes := if losList.isEmpty then 0 else meanQ losList
    metrics_sla_breaches := (waits.filter (fun w => decide (60 < w))).length
    metrics_avg_occupancy := if s.tsOccupancy.isEmpty then 0 else meanQ s.tsOccupancy
    metrics_peak_occupancy := if s.tsOccupancy.isEmpty then 0 else maxQ s.tsOccupancy
    metrics_avg_nurse_load := if s.tsNurseLoad.isEmpty then 0 else meanQ s.tsNurseLoad
    tsTime := s.tsTime
    tsOccupancy := s.tsOccupancy
    tsBedQueue := s.tsBedQueue
    tsImagingQueue := s.tsImagingQueue
    tsNurseLoad := s.tsNurseLoad
    bottlenecks := sortedB.take 5 }

/-- `SimulationEngine(parameters, seed).run(cb)` up to, but not including,
`_calculate_results`: the final engine state and the recorded callback
trail. -/
def engineRunS (p : Params) (g : Nat → Nat) (fuel : Nat) :
    Option (EngineState × List (ℚ × Int)) :=
  runLoop g fuel (runGenerateArrivals g fuel (initState p)) 0 0 []

/-- `SimulationEngine(parameters, seed).run(cb)`: the result bundle and the
recorded `(now, progress)` callback trail. -/
def engineRun (p : Params) (g : Nat → Nat) (fuel : Nat) :
    Option (RunResult × List (ℚ × Int)) :=
  (engineRunS p g fuel).map fun sc => (calculateResults sc.1, sc.2)

/-! The job runner (`backend/app/worker.py`, `run_simulation_task`) over an
in-memory relational state. -/

structure ScenarioRow where
  id : Nat
  parameters : Params
deriving DecidableEq, Inhabited, Repr

structure RunRow where
  id : Nat
  scenario_id : Nat
  status : String := "pending"
  progress : Int := 0
  error_message : Option String := none
deriving DecidableEq, Inhabited, Repr

structure Db where
  runs : List RunRow
  scenarios : List ScenarioRow
deriving DecidableEq, Inhabited, Repr

inductive TaskResult
  | notFound
  | completed (res : RunResult)
  | failed (msg : String)
deriving DecidableEq, Inhabited, Repr

def findRun (db : Db) (rid : Nat) : Option RunRow :=
  db.runs.find? fun r => r.id == rid

def findScenario (db : Db) (sid : Nat) : Option ScenarioRow :=
  db.scenarios.find? fun c => c.id == sid

def updateRun (db : Db) (rid : Nat) (f : RunRow → RunRow) : Db :=
  { db with runs := db.runs.map fun r => if r.id == rid then f r else r }

/-- `run_simulation_task(run_id, scenario_id)`: query the run and the
scenario; if either is missing, return `{"error": "Run or scenario not
found"}` (the database is left untouched — in particular the run row keeps
its previous status).  Otherwise set the run to `running`, execute the
engine with each progress callback persisting `run.progress`, and finish
with `completed`/`progress = 100` or `failed` with the captured message. -/
def runSimulationTask (db : Db) (runId scenarioId : Nat) (g : Nat → Nat)
    (fuel : Nat) : Db × TaskResult :=
  match findRun db runId, findScenario db scenarioId with
  | some _, some scenario =>
    let db1 := updateRun db runId fun r => { r with status := "running" }
    match engineRun scenario.parameters g fuel with
    | some rc =>
      let db2 := rc.2.foldl
        (fun d pr => updateRun d runId fun r => { r with progress := pr.2 }) db1
      (updateRun db2 runId fun r => { r with status := "completed", progress := 100 },
       .completed rc.1)
    | none =>
      (updateRun db1 runId fun r =>
        { r with status := "failed", error_message := some "engine fault" },
       .failed "engine fault")
  | _, _ => (db, .notFound)

/-- The successive values written to `run.progress` for a completed run: one
write per progress callback (worker lines 61-64) followed by the final
`run.progress = 100` (line 71). -/
def progressWrites (p : Params) (g : Nat → Nat) (fuel : Nat) : Option (List Int) :=
  (engineRunS p g fuel).map fun sc => sc.2.map Prod.snd ++ [100]

/-! The replay streamer (`backend/app/api/websocket.py`).  Wall-clock
timestamps are whole seconds (`Int`); the horizon is 24 h = 86400 s, the tick
interval 60 s, the event window `timedelta(minutes=1)`. -/

/-- A persisted `Event` row as read by `get_replay_delta`. -/
structure EventRow where
  id : Nat
  unit_id : Nat
  timestamp : Int
  event_type : String
  patient_id : Option Nat := none
  bed_id : Option Nat := none
deriving DecidableEq, Inhabited, Repr

/-- The serialized event marker `{id, type, timestamp, patient_id, bed_id}`
(the opaque `data` payload is not modelled). -/
structure EventMarker where
  id : Nat
  type : String
  timestamp : Int
  patient_id : Option Nat
  bed_id : Option Nat
deriving DecidableEq, Inhabited, Repr

structure BedChange where
  bed_id : Nat
  status : String
  patient_id : Option Nat
deriving DecidableEq, Inhabited, Repr

/-- A persisted `Bed` row (only the fields `get_replay_delta` reads). -/
structure BedRow where
  id : Nat
  unit_id : Nat
  status : String
deriving DecidableEq, Inhabited, Repr

/-- The events query of `get_replay_delta`: rows of the unit with
`window_start ≤ timestamp ≤ timestamp_param` where
`window_start = timestamp_param - 60 s`, ordered by timestamp. -/
def replayEvents (log : List EventRow) (u : Nat) (t : Int) : List EventRow :=
  insertionSort (fun a b => decide (a.timestamp ≤ b.timestamp))
    (log.filter fun e =>
      decide (e.unit_id = u) && decide (t - 60 ≤ e.timestamp) && decide (e.timestamp ≤ t))

def toMarker (e : EventRow) : EventMarker :=
  { id := e.id, type := e.event_type, timestamp := e.timestamp,
    patient_id := e.patient_id, bed_id := e.bed_id }

/-- The bed-change derivation table of `get_replay_delta` (guarded by
`if event.bed_id` — Python truthiness). -/
def bedChangeOf (e : EventRow) : Option BedChange :=
  if truthyN e.bed_id then
    if e.event_type = "bed_assignment" then
      some { bed_id := e.bed_id.getD 0, status := "occupied", patient_id := e.patient_id }
    else if e.event_type = "discharge" then
      some { bed_id := e.bed_id.getD 0, status := "empty", patient_id := none }
    else if e.event_type = "cleaning_start" then
      some { bed_id := e.bed_id.getD 0, status := "cleaning", patient_id := none }
    else if e.event_type = "cleaning_end" then
      some { bed_id := e.bed_id.getD 0, status := "empty", patient_id := none }
    else none
  else none

/-- Python `round(q, 1)` (round-half-to-even at one decimal). -/
def roundPy1 (q : ℚ) : ℚ :=
  let r := q * 10
  let f := ⌊r⌋
  let frac := r - f
  let n : Int :=
    if frac < 1/2 then f
    else if 1/2 < frac then f + 1
    else if f % 2 = 0 then f else f + 1
  (n : ℚ) / 10

/-- The delta bundle sent in each `tick` frame. -/
structure ReplayDelta where
  bed_changes : List BedChange
  event_markers : List EventMarker
  metrics_occupancy_percent : ℚ
  metrics_average_los_hours : ℚ
  metrics_average_time_to_bed_minutes : ℚ
  metrics_sla_breaches : Nat
  metrics_imaging_queue_length : Nat
  metrics_ed_waiting_count : Nat
  metrics_nurse_load_average : ℚ
deriving DecidableEq, Inhabited, Repr

/-- `get_replay_delta(db, unit_id, timestamp)`. -/
def getReplayDelta (beds : List BedRow) (log : List EventRow) (u : Nat) (t : Int) :
    ReplayDelta :=
  let unitBeds := beds.filter fun b => decide (b.unit_id = u)
  let events := replayEvents log u t
  let occupied := (unitBeds.filter fun b => decide (b.status = "occupied")).length
  let total := unitBeds.length
  { bed_changes := events.filterMap bedChangeOf
    event_markers := events.map toMarker
    metrics_occupancy_percent :=
      if 0 < total then roundPy1 ((occupied : ℚ) / (total : ℚ) * 100) else 0
    metrics_average_los_hours := 13/2
    metrics_average_time_to_bed_minutes := 35
    metrics_sla_breaches := 0
    metrics_imaging_queue_length := 0
    metrics_ed_waiting_count := 0
    metrics_nurse_load_average :=
      if 0 < occupied then (occupied : ℚ) / 6 else 0 }

/-- The virtual cursor of the `k`-th tick of a control-free replay stream
starting at `start`: the loop runs `while current_time < end_time` with
`end_time = start + 24 h` and advances 60 s per tick, so the ticks are
`start + 60 k` for `k < 1440`. -/
def replayTick (start : Int) (k : Nat) : Int := start + 60 * k

/-- The `event_markers` of the `k`-th tick. -/
def tickMarkers (beds : List BedRow) (log : List EventRow) (u : Nat)
    (T : Int) (k : Nat) : List EventMarker :=
  (getReplayDelta beds log u (replayTick T k)).event_markers

/-! The inbound control channel of `replay_websocket`. -/

inductive ReplayAction
  | play
  | pause
  | seek (time : Int)
  | setSpeed (value : ℚ)
  | stop
deriving DecidableEq, Inhabited, Repr

/-- The effect of one control message on the stream speed: a `speed` action
performs `speed = float(message.get("value", 1.0))` with no validation;
every other action leaves the speed unchanged. -/
def applySpeed (speed : ℚ) : ReplayAction → ℚ
  | .setSpeed v => v
  | _ => speed

/-- The speed in effect after a sequence of inbound control messages. -/
def speedAfter (s0 : ℚ) (msgs : List ReplayAction) : ℚ := msgs.foldl applySpeed s0

/-- The subscribe-time validation `speed: float = Query(default=1.0, ge=0.1,
le=10.0)`: FastAPI rejects the connection for values outside `[0.1, 10]`. -/
def subscribeSpeed (requested : ℚ) : Option ℚ :=
  if 1/10 ≤ requested ∧ requested ≤ 10 then some requested else none

/-! Concrete inputs used to instantiate theorems with hypotheses. -/

/-- A one-bed one-nurse scenario. -/
def tinyParams : Params := { beds_available := some 1, nurse_count_day := some 1 }

/-- A stream whose first exponential draw already reaches the horizon: the
run completes with no arrivals. -/
def tinyStream : Nat → Nat := fun _ => 600

/-- The final engine state of `engineRunS tinyParams tinyStream 2`. -/
def tinyFinalState : EngineState :=
  { params := tinyParams
    rngIdx := 1
    beds := [{ id := 1, bed_type := "isolation" }]
    nurses := [{ id := 1 }]
    imagingCapacity := 2
    transportCapacity := 2 }

/-- The result bundle of the empty run. -/
def tinyRunResult : RunResult :=
  { metrics_total_patients := 0
    metrics_avg_wait_time_minutes := 0
    metrics_median_wait_time_minutes := 0
    metrics_max_wait_time_minutes := 0
    metrics_avg_los_minutes := 0
    metrics_sla_breaches := 0
    metrics_avg_occupancy := 0
    metrics_peak_occupancy := 0
    metrics_avg_nurse_load := 0
    tsTime := []
    tsOccupancy := []
    tsBedQueue := []
    tsImagingQueue := []
    tsNurseLoad := []
    bottlenecks := [] }

/-- The stream behind the C7 counterexample run: one patient arriving at
16.8 min without imaging, discharged at 141.8 min, bed cleaned at 156.8. -/
def c7Stream : Nat → Nat := fun i => [7, 0, 400, 400, 600, 0, 0, 0].getD i 0

/-- The stream behind the C2 counterexample run: one patient arriving at
1437.6 min requiring imaging, whose imaging chain runs past the horizon
(imaging ends at 1554.6 min, i.e. progress 107). -/
def c2Stream : Nat → Nat := fun i => [599, 0, 300, 400, 600, 9, 29, 0, 39].getD i 0

/-- C1: for every scenario parameter dictionary and every seed (modelled by
the output stream of the seeded generator), two executions of `run()`
produce identical results: equal metrics, element-wise equal timeseries
arrays, and bottleneck lists equal in content and order.  The engine is a
pure function of `(parameters, stream, fuel)` — every stochastic draw routes
through the seeded generator and the single-threaded event loop admits no
other source of nondeterminism — so any two completed executions agree. -/
theorem c1_run_deterministic (p : Params) (g : Nat → Nat) (fuel : Nat)
    (r₁ r₂ : RunResult × List (ℚ × Int))
    (h₁ : engineRun p g fuel = some r₁) (h₂ : engineRun p g fuel = some r₂) :
    (r₁.1.metrics_total_patients = r₂.1.metrics_total_patients ∧
     r₁.1.metrics_avg_wait_time_minutes = r₂.1.metrics_avg_wait_time_minutes ∧
     r₁.1.metrics_median_wait_time_minutes = r₂.1.metrics_median_wait_time_minutes ∧
     r₁.1.metrics_max_wait_time_minutes = r₂.1.metrics_max_wait_time_minutes ∧
     r₁.1.metrics_avg_los_minutes = r₂.1.metrics_avg_los_minutes ∧
     r₁.1.metrics_sla_breaches = r₂.1.metrics_sla_breaches ∧
     r₁.1.metrics_avg_occupancy = r₂.1.metrics_avg_occupancy ∧
     r₁.1.metrics_peak_occupancy = r₂.1.metrics_peak_occupancy ∧
     r₁.1.metrics_avg_nurse_load = r₂.1.metrics_avg_nurse_load) ∧
    (r₁.1.tsTime = r₂.1.tsTime ∧ r₁.1.tsOccupancy = r₂.1.tsOccupancy ∧
     r₁.1.tsBedQueue = r₂.1.tsBedQueue ∧ r₁.1.tsImagingQueue = r₂.1.tsImagingQueue ∧
     r₁.1.tsNurseLoad = r₂.1.tsNurseLoad) ∧
    r₁.1.bottlenecks = r₂.1.bottlenecks := by
  have h := h₁.symm.trans h₂
  rw [Option.some.injEq] at h
  subst h
  exact ⟨⟨rfl, rfl, rfl, rfl, rfl, rfl, rfl, rfl, rfl⟩, ⟨rfl, rfl, rfl, rfl, rfl⟩, rfl⟩

theorem c1_run_deterministic_witness :
    engineRun tinyParams tinyStream 2 = some (tinyRunResult, []) ∧
    (tinyRunResult, ([] : List (ℚ × Int))).1.bottlenecks =
      (tinyRunResult, ([] : List (ℚ × Int))).1.bottlenecks :=
  ⟨by with_unfolding_all decide,
   (c1_run_deterministic tinyParams tinyStream 2 (tinyRunResult, []) (tinyRunResult, [])
      (by with_unfolding_all decide) (by with_unfolding_all decide)).2.2⟩

/-- C4 counterexample: with a pending run row whose scenario is missing, the
worker returns the error result and leaves the database — including the run
row, still `pending` — completely unchanged, instead of transitioning the
run to `failed`. -/
theorem c4_counterexample :
    (runSimulationTask
        { runs := [{ id := 1, scenario_id := 2 }], scenarios := [] } 1 2 (fun _ => 0) 1).1 =
      { runs := [{ id := 1, scenario_id := 2 }], scenarios := [] } ∧
    ((runSimulationTask
        { runs := [{ id := 1, scenario_id := 2 }], scenarios := [] } 1 2 (fun _ => 0) 1).1.runs.map
      fun r => r.status) = ["pending"] := by
  refine ⟨?_, ?_⟩ <;> with_unfolding_all decide

/-- C4 (amended): when the run row or the scenario row does not exist, the
worker short-circuits by returning `{"error": "Run or scenario not found"}`
and leaves the database (in particular the run row and its status)
unchanged; no transition to `failed` happens. -/
theorem c4_missing_returns_error (db : Db) (runId scenarioId : Nat)
    (g : Nat → Nat) (fuel : Nat)
    (h : findRun db runId = none ∨ findScenario db scenarioId = none) :
    runSimulationTask db runId scenarioId g fuel = (db, TaskResult.notFound) := by
  rcases h with h | h
  · cases hs : findScenario db scenarioId <;> simp [runSimulationTask, h, hs]
  · cases hr : findRun db runId <;> simp [runSimulationTask, h, hr]

theorem c4_missing_returns_error_witness :
    (findRun { runs := [], scenarios := [] } 1 = none ∨
      findScenario { runs := [], scenarios := [] } 2 = none) ∧
    runSimulationTask { runs := [], scenarios := [] } 1 2 (fun _ => 0) 1 =
      ({ runs := [], scenarios := [] }, TaskResult.notFound) :=
  ⟨Or.inl rfl, c4_missing_returns_error { runs := [], scenarios := [] } 1 2 (fun _ => 0) 1
    (Or.inl rfl)⟩

/-- C8 counterexample: a stream accepted at the validated default speed 1.0
that then receives the control message `{"action": "speed", "value": 0}`
ends up with speed 0, outside `[0.1, 10]` — the per-tick sleep `1 / speed`
is then a division by zero. -/
theorem c8_counterexample :
    subscribeSpeed 1 = some 1 ∧
    speedAfter 1 [ReplayAction.setSpeed 0] = 0 ∧
    ¬ ((1 : ℚ)/10 ≤ speedAfter 1 [ReplayAction.setSpeed 0]) := by
  refine ⟨?_, ?_, ?_⟩ <;> with_unfolding_all decide

/-- C8 (amended): the subscribe-time speed is validated into `[0.1, 10]`,
and a stream that receives no `speed` control message keeps its initial
speed, which therefore stays in range; but a `speed` control message sets
the speed to its raw value with no validation at all. -/
theorem c8_speed_amended (s₀ : ℚ) (msgs : List ReplayAction)
    (hsub : (subscribeSpeed s₀).isSome)
    (hnospeed : ∀ v : ℚ, ReplayAction.setSpeed v ∉ msgs) :
    speedAfter s₀ msgs = s₀ ∧
    1/10 ≤ speedAfter s₀ msgs ∧ speedAfter s₀ msgs ≤ 10 ∧
    ∀ v : ℚ, speedAfter s₀ (msgs ++ [ReplayAction.setSpeed v]) = v := by
  have hrange : 1/10 ≤ s₀ ∧ s₀ ≤ 10 := by
    by_cases h : 1/10 ≤ s₀ ∧ s₀ ≤ 10
    · exact h
    · rw [subscribeSpeed, if_neg h] at hsub
      simp at hsub
  have heq : speedAfter s₀ msgs = s₀ := by
    induction msgs with
    | nil => rfl
    | cons m rest ih =>
      cases m with
      | setSpeed v => exact absurd (List.mem_cons_self _ _) (hnospeed v)
      | play =>
        exact ih fun v hv => hnospeed v (List.mem_cons_of_mem _ hv)
      | pause =>
        exact ih fun v hv => hnospeed v (List.mem_cons_of_mem _ hv)
      | seek tm =>
        exact ih fun v hv => hnospeed v (List.mem_cons_of_mem _ hv)
      | stop =>
        exact ih fun v hv => hnospeed v (List.mem_cons_of_mem _ hv)
  refine ⟨heq, ?_, ?_, fun v => ?_⟩
  · rw [heq]; exact hrange.1
  · rw [heq]; exact hrange.2
  · simp [speedAfter, List.foldl_append, applySpeed]

/-- C5: when `imaging_end` fires with a non-empty imaging queue, the engine
dequeues the head waiter `pid`, stamps that waiter's `imaging_start_time`
with the current time, and schedules that waiter's `imaging_end` at
`now + d` with `d ∈ {20..59}`; the dequeued patient's `imaging_start_time`
is not left unset. -/
theorem c5_imaging_end_dequeues (g : Nat → Nat) (s : EngineState) (ev : SimEvent)
    (pid : Nat) (rest : List Nat) (pe p : SimPatient)
    (hq : s.imagingQueue = pid :: rest)
    (hpe : dictGet s.patients ev.entity_id = some pe)
    (hp : dictGet s.patients pid = some p) :
    ∃ s2, handleImagingEnd g s ev = some s2 ∧
      s2.imagingQueue = rest ∧
      (∃ q, dictGet s2.patients pid = some q ∧ q.imaging_start_time = some ev.time) ∧
      ∃ d : Nat, 20 ≤ d ∧ d ≤ 59 ∧
        ({ time := ev.time + (d : ℚ), event_type := .imaging_end,
           entity_id := pid } : SimEvent) ∈ s2.eventQueue := by
  by_cases hid : pid = ev.entity_id
  · subst hid
    have hnp : dictGet (dictSet s.patients ev.entity_id
        { pe with imaging_end_time := some ev.time }) ev.entity_id =
        some { pe with imaging_end_time := some ev.time } :=
      dictGet_dictSet_self _ _ _
    unfold handleImagingEnd
    rw [hpe]
    dsimp only
    rw [hq]
    dsimp only
    rw [hnp]
    dsimp only
    refine ⟨_, rfl, rfl, ⟨_, dictGet_dictSet_self _ _ _, rfl⟩,
      (rngIntegers g s.rngIdx 20 60).1, ?_, ?_, ?_⟩
    · simp [rngIntegers]
    · simp only [rngIntegers]
      omega
    · exact (heappush_mem _ _ _ _).mpr (Or.inl rfl)
  · have hnp : dictGet (dictSet s.patients ev.entity_id
        { pe with imaging_end_time := some ev.time }) pid = some p := by
      rw [dictGet_dictSet_ne _ _ _ _ hid]
      exact hp
    unfold handleImagingEnd
    rw [hpe]
    dsimp only
    rw [hq]
    dsimp only
    rw [hnp]
    dsimp only
    refine ⟨_, rfl, rfl, ⟨_, dictGet_dictSet_self _ _ _, rfl⟩,
      (rngIntegers g s.rngIdx 20 60).1, ?_, ?_, ?_⟩
    · simp [rngIntegers]
    · simp only [rngIntegers]
      omega
    · exact (heappush_mem _ _ _ _).mpr (Or.inl rfl)

/-- A concrete state for instantiating `c5_imaging_end_dequeues`: patient 1
finishes imaging at time 100 while patient 2 waits in the imaging queue. -/
def c5State : EngineState :=
  { params := {}
    patients := [(1, { id := 1, acuity := .low, arrival_time := 0 }),
                 (2, { id := 2, acuity := .low, arrival_time := 0 })]
    imagingQueue := [2]
    imagingInUse := 1
    imagingCapacity := 2 }

theorem c5_imaging_end_dequeues_witness :
    (c5State.imagingQueue = 2 :: [] ∧
      dictGet c5State.patients 1 = some { id := 1, acuity := .low, arrival_time := 0 } ∧
      dictGet c5State.patients 2 = some { id := 2, acuity := .low, arrival_time := 0 }) ∧
    ∃ s2, handleImagingEnd (fun _ => 0) c5State
        { time := 100, event_type := .imaging_end, entity_id := 1 } = some s2 ∧
      s2.imagingQueue = [] ∧
      (∃ q, dictGet s2.patients 2 = some q ∧
        q.imaging_start_time = some (100 : ℚ)) ∧
      ∃ d : Nat, 20 ≤ d ∧ d ≤ 59 ∧
        ({ time := (100 : ℚ) + (d : ℚ), event_type := .imaging_end,
           entity_id := 2 } : SimEvent) ∈ s2.eventQueue :=
  ⟨⟨rfl, rfl, rfl⟩,
   c5_imaging_end_dequeues (fun _ => 0) c5State
     { time := 100, event_type := .imaging_end, entity_id := 1 } 2 []
     { id := 1, acuity := .low, arrival_time := 0 }
     { id := 2, acuity := .low, arrival_time := 0 } rfl rfl rfl⟩

/-- `List.find?` returns the first match: with a pairwise-`R` list, the found
element is `R`-related (or equal) to every match. -/
theorem find?_first {α : Type} (R : α → α → Prop) (p : α → Bool) :
    ∀ (l : List α), l.Pairwise R → ∀ b0, l.find? p = some b0 →
      ∀ b ∈ l, p b = true → (b0 = b ∨ R b0 b) := by
  intro l
  induction l with
  | nil => intro _ b0 hfind; simp [List.find?] at hfind
  | cons x t ih =>
    intro hpair b0 hfind b hb hpb
    rw [List.find?_cons] at hfind
    by_cases hx : p x
    · simp only [hx, Option.some.injEq] at hfind
      subst hfind
      rcases List.mem_cons.mp hb with hbx | hbt
      · exact Or.inl hbx.symm
      · exact Or.inr ((List.pairwise_cons.mp hpair).1 b hbt)
    · simp only [Bool.not_eq_true] at hx
      simp only [hx] at hfind
      rcases List.mem_cons.mp hb with hbx | hbt
      · subst hbx
        exact absurd hpb (by simpa using hx)
      · exact ih (List.pairwise_cons.mp hpair).2 b0 hfind b hbt hpb

/-- C6: on every bed request the engine scans the beds in ascending id order
and assigns the first bed with `¬is_occupied ∧ ¬is_cleaning ∧ available_at ≤
t` (so the assigned bed has the least id among the free ones); when no bed
qualifies, the patient is appended to the tail of the bed-wait FIFO and a
`bed_availability` bottleneck record carrying the new queue length is
appended to the bottleneck log. -/
theorem c6_request_bed (g : Nat → Nat) (s : EngineState) (pid : Nat) (t : ℚ)
    (p : SimPatient) (hp : dictGet s.patients pid = some p)
    (hsorted : List.Pairwise (fun a b : SimBed => a.id < b.id) s.beds) :
    (∀ b0, s.beds.find? (fun b => bedFree b t) = some b0 →
      requestBed g s pid t = some (assignBed g s p b0.id t) ∧
      ∀ b ∈ s.beds, bedFree b t = true → b0.id ≤ b.id) ∧
    (s.beds.find? (fun b => bedFree b t) = none →
      requestBed g s pid t = some { s with
        bedQueue := s.bedQueue ++ [pid]
        bottleneckEvents := s.bottleneckEvents ++
          [{ time := t
             constraint := "bed_availability"
             patient_id := pid
             queue_length := some (s.bedQueue.length + 1) }] }) := by
  constructor
  · intro b0 hfind
    constructor
    · unfold requestBed
      rw [hp]
      dsimp only
      rw [hfind]
    · intro b hb hfree
      rcases find?_first (fun a b : SimBed => a.id < b.id) (fun b => bedFree b t)
        s.beds hsorted b0 hfind b hb hfree with h | h
      · exact h ▸ le_refl _
      · exact le_of_lt h
  · intro hfind
    unfold requestBed
    rw [hp]
    dsimp only
    rw [hfind]
    dsimp only
    rw [Option.some.injEq]
    congr 1
    simp

/-- Frame facts shared by every event handler: handlers never touch the
timeseries lists, the clock, or the transport pool. -/
abbrev frameEq (s2 s : EngineState) : Prop :=
  s2.tsTime = s.tsTime ∧ s2.tsOccupancy = s.tsOccupancy ∧
  s2.tsBedQueue = s.tsBedQueue ∧ s2.tsImagingQueue = s.tsImagingQueue ∧
  s2.tsNurseLoad = s.tsNurseLoad ∧ s2.currentTime = s.currentTime ∧
  s2.transportInUse = s.transportInUse ∧ s2.transportQueue = s.transportQueue ∧
  s2.transportCapacity = s.transportCapacity

/-- Handlers only ever append bottleneck records tagged `bed_availability`,
`nurse_staffing` or `imaging_capacity`. -/
abbrev bneckSuper (s2 s : EngineState) : Prop :=
  ∀ b ∈ s2.bottleneckEvents, b ∈ s.bottleneckEvents ∨
    b.constraint = "bed_availability" ∨ b.constraint = "nurse_staffing" ∨
    b.constraint = "imaging_capacity"

theorem frameEq_refl (s : EngineState) : frameEq s s :=
  ⟨rfl, rfl, rfl, rfl, rfl, rfl, rfl, rfl, rfl⟩

theorem frameEq_trans {s3 s2 s : EngineState} (h32 : frameEq s3 s2)
    (h21 : frameEq s2 s) : frameEq s3 s := by
  obtain ⟨a1, a2, a3, a4, a5, a6, a7, a8, a9⟩ := h32
  obtain ⟨b1, b2, b3, b4, b5, b6, b7, b8, b9⟩ := h21
  exact ⟨a1.trans b1, a2.trans b2, a3.trans b3, a4.trans b4, a5.trans b5,
    a6.trans b6, a7.trans b7, a8.trans b8, a9.trans b9⟩

theorem bneckSuper_refl (s : EngineState) : bneckSuper s s := fun b hb => Or.inl hb

theorem bneckSuper_trans {s3 s2 s : EngineState} (h32 : bneckSuper s3 s2)
    (h21 : bneckSuper s2 s) : bneckSuper s3 s := by
  intro b hb
  rcases h32 b hb with h | h
  · exact h21 b h
  · exact Or.inr h

theorem assignNurse_frame (s : EngineState) (p : SimPatient) (t : ℚ) :
    frameEq (assignNurse s p t).1 s ∧ bneckSuper (assignNurse s p t).1 s := by
  unfold assignNurse
  cases pickNurse s.nurses with
  | some best =>
    exact ⟨frameEq_refl _, fun b hb => Or.inl hb⟩
  | none =>
    refine ⟨frameEq_refl _, fun b hb => ?_⟩
    rcases List.mem_append.mp hb with h | h
    · exact Or.inl h
    · simp only [List.mem_singleton] at h
      subst h
      exact Or.inr (Or.inr (Or.inl rfl))

theorem assignBed_frame (g : Nat → Nat) (s : EngineState) (p : SimPatient)
    (bid : Nat) (t : ℚ) :
    frameEq (assignBed g s p bid t) s ∧ bneckSuper (assignBed g s p bid t) s := by
  unfold assignBed
  dsimp only
  have h1 : frameEq { s with beds := updateBed s.beds bid fun b =>
      { b with is_occupied := true, patient_id := some p.id } } s := frameEq_refl _
  obtain ⟨hf, hb⟩ := assignNurse_frame
    { s with beds := updateBed s.beds bid fun b =>
        { b with is_occupied := true, patient_id := some p.id } }
    { p with bed_id := some bid, bed_assigned_time := some t } t
  split <;> split <;>
    exact ⟨frameEq_trans hf h1, fun b hbb => hb b hbb⟩

theorem assignBed_frame_of (g : Nat → Nat) (s : EngineState) (p : SimPatient)
    (bid : Nat) (t : ℚ) (s0 : EngineState) (hf : frameEq s s0)
    (hb : bneckSuper s s0) :
    frameEq (assignBed g s p bid t) s0 ∧ bneckSuper (assignBed g s p bid t) s0 := by
  obtain ⟨hf2, hb2⟩ := assignBed_frame g s p bid t
  exact ⟨frameEq_trans hf2 hf, bneckSuper_trans hb2 hb⟩

theorem requestBed_frame (g : Nat → Nat) (s : EngineState) (pid : Nat) (t : ℚ)
    (s2 : EngineState) (h : requestBed g s pid t = some s2) :
    frameEq s2 s ∧ bneckSuper s2 s := by
  unfold requestBed at h
  split at h
  · exact absurd h (by simp)
  · split at h
    · rw [Option.some.injEq] at h
      subst h
      exact assignBed_frame g s _ _ t
    · rw [Option.some.injEq] at h
      subst h
      refine ⟨frameEq_refl _, fun b hb => ?_⟩
      rcases List.mem_append.mp hb with hh | hh
      · exact Or.inl hh
      · simp only [List.mem_singleton] at hh
        subst hh
        exact Or.inr (Or.inl rfl)

theorem handleArrival_frame (g : Nat → Nat) (s : EngineState) (ev : SimEvent)
    (s2 : EngineState) (h : handleArrival g s ev = some s2) :
    frameEq s2 s ∧ bneckSuper s2 s := by
  unfold handleArrival at h
  split at h
  · rw [Option.some.injEq] at h
    subst h
    exact ⟨frameEq_refl _, fun b hb => Or.inl hb⟩
  · exact absurd h (by simp)

theorem handleTriageEnd_frame (g : Nat → Nat) (s : EngineState) (ev : SimEvent)
    (s2 : EngineState) (h : handleTriageEnd g s ev = some s2) :
    frameEq s2 s ∧ bneckSuper s2 s := by
  unfold handleTriageEnd at h
  split at h
  · exact absurd h (by simp)
  · obtain ⟨hf, hb⟩ := requestBed_frame g _ _ _ _ h
    exact ⟨hf, hb⟩

theorem handleImagingRequest_frame (g : Nat → Nat) (s : EngineState)
    (ev : SimEvent) (s2 : EngineState) (h : handleImagingRequest g s ev = some s2) :
    frameEq s2 s ∧ bneckSuper s2 s := by
  unfold handleImagingRequest at h
  split at h
  · split at h
    · exact absurd h (by simp)
    · rw [Option.some.injEq] at h
      subst h
      exact ⟨frameEq_refl _, fun b hb => Or.inl hb⟩
  · rw [Option.some.injEq] at h
    subst h
    refine ⟨frameEq_refl _, fun b hb => ?_⟩
    rcases List.mem_append.mp hb with hh | hh
    · exact Or.inl hh
    · simp only [List.mem_singleton] at hh
      subst hh
      exact Or.inr (Or.inr (Or.inr rfl))

theorem handleImagingEnd_frame (g : Nat → Nat) (s : EngineState) (ev : SimEvent)
    (s2 : EngineState) (h : handleImagingEnd g s ev = some s2) :
    frameEq s2 s ∧ bneckSuper s2 s := by
  unfold handleImagingEnd at h
  dsimp only at h
  repeat' split at h
  all_goals first
    | (rw [Option.some.injEq] at h
       subst h
       exact ⟨⟨rfl, rfl, rfl, rfl, rfl, rfl, rfl, rfl, rfl⟩, fun b hb => Or.inl hb⟩)
    | exact Option.noConfusion h

theorem freeBedOnDischarge_frame (g : Nat → Nat) (s1 : EngineState)
    (p : SimPatient) (t : ℚ) (s3 : EngineState)
    (h : freeBedOnDischarge g s1 p t = some s3) :
    frameEq s3 s1 ∧ s3.bottleneckEvents = s1.bottleneckEvents ∧
      s3.patientOutcomes = s1.patientOutcomes ∧ s3.patients = s1.patients := by
  unfold freeBedOnDischarge at h
  dsimp only at h
  repeat' split at h
  all_goals first
    | (rw [Option.some.injEq] at h
       subst h
       exact ⟨⟨rfl, rfl, rfl, rfl, rfl, rfl, rfl, rfl, rfl⟩, rfl, rfl, rfl⟩)
    | exact Option.noConfusion h

theorem freeNurseOnDischarge_frame (s3 : EngineState) (p : SimPatient)
    (s4 : EngineState) (h : freeNurseOnDischarge s3 p = some s4) :
    frameEq s4 s3 ∧ s4.bottleneckEvents = s3.bottleneckEvents ∧
      s4.patientOutcomes = s3.patientOutcomes ∧ s4.patients = s3.patients := by
  unfold freeNurseOnDischarge at h
  try dsimp only at h
  repeat' split at h
  all_goals first
    | (rw [Option.some.injEq] at h
       subst h
       exact ⟨⟨rfl, rfl, rfl, rfl, rfl, rfl, rfl, rfl, rfl⟩, rfl, rfl, rfl⟩)
    | exact Option.noConfusion h

theorem handleDischarge_frame (g : Nat → Nat) (s : EngineState) (ev : SimEvent)
    (s2 : EngineState) (h : handleDischarge g s ev = some s2) :
    frameEq s2 s ∧ bneckSuper s2 s := by
  unfold handleDischarge at h
  dsimp only at h
  split at h
  next => exact Option.noConfusion h
  next p0 hp0 =>
    split at h
    next => exact Option.noConfusion h
    next s3 hfb =>
      split at h
      next => exact Option.noConfusion h
      next s4 hfn =>
        rw [Option.some.injEq] at h
        subst h
        obtain ⟨hf3, hbn3, _, _⟩ := freeBedOnDischarge_frame _ _ _ _ _ hfb
        obtain ⟨hf4, hbn4, _, _⟩ := freeNurseOnDischarge_frame _ _ _ hfn
        have hf : frameEq s4 s :=
          frameEq_trans hf4 (frameEq_trans hf3 ⟨rfl, rfl, rfl, rfl, rfl, rfl, rfl, rfl, rfl⟩)
        refine ⟨hf, fun b hb => Or.inl ?_⟩
        have hbmem : b ∈ s4.bottleneckEvents := hb
        rw [hbn4, hbn3] at hbmem
        exact hbmem

set_option maxHeartbeats 1000000 in
theorem handleCleaningEnd_frame (g : Nat → Nat) (s : EngineState) (ev : SimEvent)
    (s2 : EngineState) (h : handleCleaningEnd g s ev = some s2) :
    frameEq s2 s ∧ bneckSuper s2 s := by
  unfold handleCleaningEnd at h
  dsimp only at h
  split at h
  next => exact Option.noConfusion h
  next bid hbid =>
    split at h
    next => exact Option.noConfusion h
    next bfound hfound =>
      split at h
      next hq =>
        rw [Option.some.injEq] at h
        subst h
        exact ⟨⟨rfl, rfl, rfl, rfl, rfl, rfl, rfl, rfl, rfl⟩, fun b hb => Or.inl hb⟩
      next pid restQ hq =>
        split at h
        next => exact Option.noConfusion h
        next p hpfound =>
          rw [Option.some.injEq] at h
          subst h
          exact assignBed_frame_of _ _ _ _ _ s
            ⟨rfl, rfl, rfl, rfl, rfl, rfl, rfl, rfl, rfl⟩ (fun b hb => Or.inl hb)

theorem processEvent_frame (g : Nat → Nat) (s : EngineState) (ev : SimEvent)
    (s2 : EngineState) (h : processEvent g s ev = some s2) :
    frameEq s2 s ∧ bneckSuper s2 s := by
  unfold processEvent at h
  split at h
  · exact handleArrival_frame _ _ _ _ h
  · exact handleTriageEnd_frame _ _ _ _ h
  · exact handleImagingRequest_frame _ _ _ _ h
  · exact handleImagingEnd_frame _ _ _ _ h
  · exact handleDischarge_frame _ _ _ _ h
  · exact handleCleaningEnd_frame _ _ _ _ h
  · rw [Option.some.injEq] at h
    subst h
    exact ⟨frameEq_refl _, bneckSuper_refl _⟩

theorem collectMetrics_effects (s : EngineState) :
    (collectMetrics s).tsTime = s.tsTime ++ [s.currentTime] ∧
    (collectMetrics s).currentTime = s.currentTime ∧
    (collectMetrics s).transportInUse = s.transportInUse ∧
    (collectMetrics s).transportQueue = s.transportQueue ∧
    (collectMetrics s).transportCapacity = s.transportCapacity ∧
    (collectMetrics s).bottleneckEvents = s.bottleneckEvents ∧
    (collectMetrics s).patientOutcomes = s.patientOutcomes ∧
    (collectMetrics s).patients = s.patients ∧
    (collectMetrics s).eventQueue = s.eventQueue :=
  ⟨rfl, rfl, rfl, rfl, rfl, rfl, rfl, rfl, rfl⟩

/-- Arrival generation only touches the rng counter, the patient counter and
the event queue. -/
abbrev genFrame (s2 s : EngineState) : Prop :=
  s2.patients = s.patients ∧ s2.beds = s.beds ∧ s2.nurses = s.nurses ∧
  s2.bedQueue = s.bedQueue ∧ s2.imagingQueue = s.imagingQueue ∧
  s2.transportQueue = s.transportQueue ∧ s2.imagingCapacity = s.imagingCapacity ∧
  s2.imagingInUse = s.imagingInUse ∧ s2.transportCapacity = s.transportCapacity ∧
  s2.transportInUse = s.transportInUse ∧ s2.currentTime = s.currentTime ∧
  s2.tsTime = s.tsTime ∧ s2.tsOccupancy = s.tsOccupancy ∧
  s2.tsBedQueue = s.tsBedQueue ∧ s2.tsImagingQueue = s.tsImagingQueue ∧
  s2.tsNurseLoad = s.tsNurseLoad ∧ s2.patientOutcomes = s.patientOutcomes ∧
  s2.bottleneckEvents = s.bottleneckEvents

theorem genFrame_refl (s : EngineState) : genFrame s s :=
  ⟨rfl, rfl, rfl, rfl, rfl, rfl, rfl, rfl, rfl, rfl, rfl, rfl, rfl, rfl, rfl, rfl,
   rfl, rfl⟩

theorem genFrame_trans {s3 s2 s : EngineState} (h32 : genFrame s3 s2)
    (h21 : genFrame s2 s) : genFrame s3 s := by
  obtain ⟨a1, a2, a3, a4, a5, a6, a7, a8, a9, a10, a11, a12, a13, a14, a15, a16,
    a17, a18⟩ := h32
  obtain ⟨b1, b2, b3, b4, b5, b6, b7, b8, b9, b10, b11, b12, b13, b14, b15, b16,
    b17, b18⟩ := h21
  exact ⟨a1.trans b1, a2.trans b2, a3.trans b3, a4.trans b4, a5.trans b5,
    a6.trans b6, a7.trans b7, a8.trans b8, a9.trans b9, a10.trans b10,
    a11.trans b11, a12.trans b12, a13.trans b13, a14.trans b14, a15.trans b15,
    a16.trans b16, a17.trans b17, a18.trans b18⟩

theorem generateArrivals_genFrame (g : Nat → Nat) :
    ∀ (fuel : Nat) (s : EngineState) (ca rate : ℚ) (mix : List Acuity),
      genFrame (generateArrivals g fuel s ca rate mix) s := by
  intro fuel
  induction fuel with
  | zero => intro s ca rate mix; exact genFrame_refl s
  | succ fuel ih =>
    intro s ca rate mix
    unfold generateArrivals
    dsimp only
    split
    · split
      · exact genFrame_refl _
      · exact genFrame_trans (ih _ _ _ _) (genFrame_refl _)
    · exact genFrame_refl s

theorem runGenerateArrivals_genFrame (g : Nat → Nat) (fuel : Nat)
    (s : EngineState) : genFrame (runGenerateArrivals g fuel s) s := by
  unfold runGenerateArrivals
  exact generateArrivals_genFrame g fuel s _ _ _

/-- Main-loop invariant for the sampled time series: entries are spaced at
least 15 minutes apart and bounded by the last-sample marker. -/
theorem runLoop_tsChain (g : Nat → Nat) :
    ∀ (fuel : Nat) (s : EngineState) (lm : ℚ) (lp : Int) (acc : List (ℚ × Int))
      (s2 : EngineState) (cbs : List (ℚ × Int)),
      runLoop g fuel s lm lp acc = some (s2, cbs) →
      List.Chain' (fun a b : ℚ => a + 15 ≤ b) s.tsTime →
      (∀ x ∈ s.tsTime, x ≤ lm) →
      List.Chain' (fun a b : ℚ => a + 15 ≤ b) s2.tsTime := by
  intro fuel
  induction fuel with
  | zero =>
    intro s lm lp acc s2 cbs h hc hle
    unfold runLoop at h
    split at h
    · rw [Option.some.injEq, Prod.mk.injEq] at h
      rw [← h.1]
      exact hc
    · exact Option.noConfusion h
  | succ fuel ih =>
    intro s lm lp acc s2 cbs h hc hle
    unfold runLoop at h
    split at h
    next =>
      rw [Option.some.injEq, Prod.mk.injEq] at h
      rw [← h.1]
      exact hc
    next evq hpop =>
      dsimp only at h
      split at h
      next => exact Option.noConfusion h
      next sp hproc =>
        obtain ⟨hts, _, _, _, _, hct, _, _, _⟩ :=
          (processEvent_frame g _ _ _ hproc).1
        have htsp : sp.tsTime = s.tsTime := hts
        split at h
        next hcollect =>
          have hcond : (15 : ℚ) ≤ sp.currentTime - lm := of_decide_eq_true hcollect
          obtain ⟨hct2, _, _, _, _, _, _, _, _⟩ := collectMetrics_effects sp
          have hnext : ∀ lp2 acc2, runLoop g fuel (collectMetrics sp)
              (collectMetrics sp).currentTime lp2 acc2 = some (s2, cbs) →
              List.Chain' (fun a b : ℚ => a + 15 ≤ b) s2.tsTime := by
            intro lp2 acc2 hrec
            refine ih _ _ _ _ _ _ hrec ?_ ?_
            · rw [hct2, htsp]
              rw [List.chain'_append]
              refine ⟨hc, List.chain'_singleton _, ?_⟩
              intro x hx y hy
              simp only [List.head?_cons, Option.mem_def, Option.some.injEq] at hy
              subst hy
              have hxm : x ≤ lm := hle x (List.mem_of_mem_getLast? hx)
              linarith
            · intro x hx
              rw [hct2, htsp] at hx
              rw [(collectMetrics_effects sp).2.1]
              rcases List.mem_append.mp hx with hx | hx
              · have := hle x hx
                linarith
              · simp only [List.mem_singleton] at hx
                subst hx
                exact le_refl _
          split at h
          next hlt => exact hnext _ _ h
          next hlt => exact hnext _ _ h
        next hcollect =>
          have hnext : ∀ lp2 acc2, runLoop g fuel sp lm lp2 acc2 = some (s2, cbs) →
              List.Chain' (fun a b : ℚ => a + 15 ≤ b) s2.tsTime := by
            intro lp2 acc2 hrec
            refine ih _ _ _ _ _ _ hrec ?_ ?_
            · rw [htsp]; exact hc
            · intro x hx
              rw [htsp] at hx
              exact hle x hx
          split at h
          next hlt => exact hnext _ _ h
          next hlt => exact hnext _ _ h

/-- C7 (amended): in the result bundle of every completed run, the
timeseries `time` array is strictly increasing and consecutive entries
differ by at least 15 minutes (samples are taken when at least 15 virtual
minutes have elapsed since the previous sample — the steps are not exactly
15). -/
theorem c7_timeseries_spacing (p : Params) (g : Nat → Nat) (fuel : Nat)
    (s2 : EngineState) (cbs : List (ℚ × Int))
    (h : engineRunS p g fuel = some (s2, cbs)) :
    List.Chain' (fun a b : ℚ => a + 15 ≤ b) (calculateResults s2).tsTime ∧
    List.Chain' (fun a b : ℚ => a < b) (calculateResults s2).tsTime := by
  unfold engineRunS at h
  have hgen := runGenerateArrivals_genFrame g fuel (initState p)
  have hts0 : (runGenerateArrivals g fuel (initState p)).tsTime = [] := by
    rw [hgen.2.2.2.2.2.2.2.2.2.2.2.1]
    rfl
  have hchain := runLoop_tsChain g fuel _ 0 0 [] s2 cbs h
    (by rw [hts0]; exact List.chain'_nil) (by rw [hts0]; intro x hx; simp at hx)
  have hres : (calculateResults s2).tsTime = s2.tsTime := rfl
  rw [hres]
  exact ⟨hchain, hchain.imp fun a b hab => by linarith⟩

theorem c7_timeseries_spacing_witness :
    engineRunS tinyParams tinyStream 2 = some (tinyFinalState, []) ∧
    (List.Chain' (fun a b : ℚ => a + 15 ≤ b) (calculateResults tinyFinalState).tsTime ∧
     List.Chain' (fun a b : ℚ => a < b) (calculateResults tinyFinalState).tsTime) :=
  ⟨by with_unfolding_all decide,
   c7_timeseries_spacing tinyParams tinyStream 2 tinyFinalState []
     (by with_unfolding_all decide)⟩

/-- C7 counterexample: the single-patient run driven by `c7Stream` samples
at 16.8, 141.8 and 156.8 virtual minutes — strictly increasing, but the
consecutive differences are 125 and 15, not uniformly 15. -/
theorem c7_counterexample :
    (engineRun {} c7Stream 10).map (fun r => r.1.tsTime) =
      some [84/5, 709/5, 784/5] ∧
    ¬ List.Chain' (fun a b : ℚ => b = a + 15) [84/5, 709/5, 784/5] := by
  constructor
  · with_unfolding_all decide
  · intro hch
    have h12 := List.chain'_cons.mp hch
    have : (709 : ℚ)/5 = 84/5 + 15 := h12.1
    norm_num at this

/-- Main-loop invariant for the progress callback: recorded values strictly
increase, stay above every previously recorded value, and each equals
`int(now / end_time * 100)` at its recording time. -/
theorem runLoop_progress (g : Nat → Nat) :
    ∀ (fuel : Nat) (s : EngineState) (lm : ℚ) (lp : Int) (acc : List (ℚ × Int))
      (s2 : EngineState) (cbs : List (ℚ × Int)),
      runLoop g fuel s lm lp acc = some (s2, cbs) →
      (∀ pr ∈ acc, pr.2 ≤ lp) →
      List.Chain' (fun a b : ℚ × Int => b.2 < a.2) acc →
      (∀ pr ∈ acc, pr.2 = pyInt (100 * pr.1 / 1440)) →
      List.Chain' (fun a b : ℚ × Int => a.2 < b.2) cbs ∧
      (∀ pr ∈ cbs, pr.2 = pyInt (100 * pr.1 / 1440)) := by
  intro fuel
  induction fuel with
  | zero =>
    intro s lm lp acc s2 cbs h hb hc hf
    unfold runLoop at h
    split at h
    · rw [Option.some.injEq, Prod.mk.injEq] at h
      rw [← h.2]
      constructor
      · have hcf : List.Chain' (flip fun a b : ℚ × Int => a.2 < b.2) acc := hc
        exact List.chain'_reverse.mpr hcf
      · intro pr hpr
        exact hf pr (List.mem_reverse.mp hpr)
    · exact Option.noConfusion h
  | succ fuel ih =>
    intro s lm lp acc s2 cbs h hb hc hf
    unfold runLoop at h
    split at h
    next =>
      rw [Option.some.injEq, Prod.mk.injEq] at h
      rw [← h.2]
      constructor
      · have hcf : List.Chain' (flip fun a b : ℚ × Int => a.2 < b.2) acc := hc
        exact List.chain'_reverse.mpr hcf
      · intro pr hpr
        exact hf pr (List.mem_reverse.mp hpr)
    next evq hpop =>
      dsimp only at h
      split at h
      next => exact Option.noConfusion h
      next sp hproc =>
        have harith : ∀ t : ℚ, pyInt (t / horizonEnd * 100) = pyInt (100 * t / 1440) := by
          intro t
          have : t / horizonEnd * 100 = 100 * t / 1440 := by
            unfold horizonEnd
            ring
          rw [this]
        have hpush : ∀ (s3 : EngineState) (lm2 : ℚ),
            runLoop g fuel s3 lm2 (pyInt (s3.currentTime / horizonEnd * 100))
              ((s3.currentTime, pyInt (s3.currentTime / horizonEnd * 100)) :: acc) =
              some (s2, cbs) →
            lp < pyInt (s3.currentTime / horizonEnd * 100) →
            List.Chain' (fun a b : ℚ × Int => a.2 < b.2) cbs ∧
              (∀ pr ∈ cbs, pr.2 = pyInt (100 * pr.1 / 1440)) := by
          intro s3 lm2 hrec hlt
          refine ih _ _ _ _ _ _ hrec ?_ ?_ ?_
          · intro pr hpr
            rcases List.mem_cons.mp hpr with hpr | hpr
            · rw [hpr]
            · exact le_of_lt (lt_of_le_of_lt (hb pr hpr) hlt)
          · rw [List.chain'_cons']
            refine ⟨?_, hc⟩
            intro y hy
            exact lt_of_le_of_lt (hb y (List.mem_of_mem_head? hy)) hlt
          · intro pr hpr
            rcases List.mem_cons.mp hpr with hpr | hpr
            · rw [hpr]
              exact harith _
            · exact hf pr hpr
        split at h
        next hcollect =>
          split at h
          next hlt => exact hpush _ _ h hlt
          next hlt => exact ih _ _ _ _ _ _ h hb hc hf
        next hcollect =>
          split at h
          next hlt => exact hpush _ _ h hlt
          next hlt => exact ih _ _ _ _ _ _ h hb hc hf

/-- C2 (amended): for a completed run, the values passed to the progress
callback are strictly increasing and each equals `⌊100·now / 1440⌋` at its
reporting time; the final value written to the run row is 100.  The whole
written sequence is non-decreasing provided every callback value is at most
100 — events fired after the 1440-minute horizon can push
`int(now/1440·100)` past 100, and then the worker's final write of 100
decreases the stored progress. -/
theorem c2_progress_amended (p : Params) (g : Nat → Nat) (fuel : Nat)
    (s2 : EngineState) (cbs : List (ℚ × Int))
    (h : engineRunS p g fuel = some (s2, cbs)) :
    List.Chain' (fun a b : Int => a < b) (cbs.map Prod.snd) ∧
    (∀ pr ∈ cbs, pr.2 = pyInt (100 * pr.1 / 1440)) ∧
    ((∀ pr ∈ cbs, pr.2 ≤ 100) →
      List.Chain' (fun a b : Int => a ≤ b) (cbs.map Prod.snd ++ [100])) ∧
    (cbs.map Prod.snd ++ [100]).getLast? = some 100 ∧
    progressWrites p g fuel = some (cbs.map Prod.snd ++ [100]) := by
  unfold engineRunS at h
  obtain ⟨hchain, hform⟩ := runLoop_progress g fuel _ 0 0 [] s2 cbs h
    (by intro pr hpr; simp at hpr) List.chain'_nil
    (by intro pr hpr; simp at hpr)
  refine ⟨(List.chain'_map Prod.snd).mpr hchain, hform, ?_, List.getLast?_concat _, ?_⟩
  · intro hbound
    rw [List.chain'_append]
    refine ⟨((List.chain'_map Prod.snd).mpr hchain).imp fun a b hab => le_of_lt hab,
      List.chain'_singleton _, ?_⟩
    intro x hx y hy
    simp only [List.head?_cons, Option.mem_def, Option.some.injEq] at hy
    subst hy
    have hxm := List.mem_of_mem_getLast? hx
    rcases List.mem_map.mp hxm with ⟨pr, hpr, hpx⟩
    rw [← hpx]
    exact hbound pr hpr
  · unfold progressWrites engineRunS
    rw [h]
    rfl

theorem c2_progress_amended_witness :
    engineRunS tinyParams tinyStream 2 = some (tinyFinalState, []) ∧
    (List.Chain' (fun a b : Int => a < b) (([] : List (ℚ × Int)).map Prod.snd) ∧
     (∀ pr ∈ ([] : List (ℚ × Int)), pr.2 = pyInt (100 * pr.1 / 1440)) ∧
     ((∀ pr ∈ ([] : List (ℚ × Int)), pr.2 ≤ 100) →
       List.Chain' (fun a b : Int => a ≤ b)
         (([] : List (ℚ × Int)).map Prod.snd ++ [100])) ∧
     (([] : List (ℚ × Int)).map Prod.snd ++ [100]).getLast? = some 100 ∧
     progressWrites tinyParams tinyStream 2 =
       some (([] : List (ℚ × Int)).map Prod.snd ++ [100])) :=
  ⟨by with_unfolding_all decide,
   c2_progress_amended tinyParams tinyStream 2 tinyFinalState []
     (by with_unfolding_all decide)⟩

/-- C2 counterexample: the run driven by `c2Stream` passes callback values
99, 100, 103, 107 (its imaging chain fires after the horizon), and the final
worker write of 100 then decreases the stored progress: the written sequence
99, 100, 103, 107, 100 is not non-decreasing. -/
theorem c2_counterexample :
    progressWrites {} c2Stream 20 = some [99, 100, 103, 107, 100] ∧
    ¬ List.Chain' (fun a b : Int => a ≤ b) [99, 100, 103, 107, 100] := by
  constructor
  · with_unfolding_all decide
  · intro hch
    have h4 := (List.chain'_cons.mp (List.chain'_cons.mp (List.chain'_cons.mp
      (List.chain'_cons.mp hch).2).2).2).1
    norm_num at h4

/-- Main-loop invariant for the transport pool: never acquired, never
queued, capacity untouched, and no bottleneck record ever carries the
`transport_capacity` constraint. -/
theorem runLoop_transport (g : Nat → Nat) (c : Int) :
    ∀ (fuel : Nat) (s : EngineState) (lm : ℚ) (lp : Int) (acc : List (ℚ × Int))
      (s2 : EngineState) (cbs : List (ℚ × Int)),
      runLoop g fuel s lm lp acc = some (s2, cbs) →
      s.transportInUse = 0 → s.transportQueue = [] → s.transportCapacity = c →
      (∀ b ∈ s.bottleneckEvents, b.constraint = "bed_availability" ∨
        b.constraint = "nurse_staffing" ∨ b.constraint = "imaging_capacity") →
      s2.transportInUse = 0 ∧ s2.transportQueue = [] ∧ s2.transportCapacity = c ∧
      (∀ b ∈ s2.bottleneckEvents, b.constraint = "bed_availability" ∨
        b.constraint = "nurse_staffing" ∨ b.constraint = "imaging_capacity") := by
  intro fuel
  induction fuel with
  | zero =>
    intro s lm lp acc s2 cbs h hu hq hcap hbn
    unfold runLoop at h
    split at h
    · rw [Option.some.injEq, Prod.mk.injEq] at h
      rw [← h.1]
      exact ⟨hu, hq, hcap, hbn⟩
    · exact Option.noConfusion h
  | succ fuel ih =>
    intro s lm lp acc s2 cbs h hu hq hcap hbn
    unfold runLoop at h
    split at h
    next =>
      rw [Option.some.injEq, Prod.mk.injEq] at h
      rw [← h.1]
      exact ⟨hu, hq, hcap, hbn⟩
    next evq hpop =>
      dsimp only at h
      split at h
      next => exact Option.noConfusion h
      next sp hproc =>
        obtain ⟨hfr, hsup⟩ := processEvent_frame g _ _ _ hproc
        obtain ⟨_, _, _, _, _, _, hpu, hpq, hpc⟩ := hfr
        have hspu : sp.transportInUse = 0 := by rw [hpu]; exact hu
        have hspq : sp.transportQueue = [] := by rw [hpq]; exact hq
        have hspc : sp.transportCapacity = c := by rw [hpc]; exact hcap
        have hspb : ∀ b ∈ sp.bottleneckEvents, b.constraint = "bed_availability" ∨
            b.constraint = "nurse_staffing" ∨ b.constraint = "imaging_capacity" := by
          intro b hb
          rcases hsup b hb with hh | hh | hh | hh
          · exact hbn b hh
          · exact Or.inl hh
          · exact Or.inr (Or.inl hh)
          · exact Or.inr (Or.inr hh)
        split at h
        next hcollect =>
          obtain ⟨_, _, hcu, hcq, hcc, hcb, _, _, _⟩ := collectMetrics_effects sp
          have hnext : ∀ lp2 acc2, runLoop g fuel (collectMetrics sp)
              (collectMetrics sp).currentTime lp2 acc2 = some (s2, cbs) →
              s2.transportInUse = 0 ∧ s2.transportQueue = [] ∧
              s2.transportCapacity = c ∧
              (∀ b ∈ s2.bottleneckEvents, b.constraint = "bed_availability" ∨
                b.constraint = "nurse_staffing" ∨
                b.constraint = "imaging_capacity") := by
            intro lp2 acc2 hrec
            refine ih _ _ _ _ _ _ hrec ?_ ?_ ?_ ?_
            · rw [hcu]; exact hspu
            · rw [hcq]; exact hspq
            · rw [hcc]; exact hspc
            · rw [hcb]; exact hspb
          split at h
          next => exact hnext _ _ h
          next => exact hnext _ _ h
        next hcollect =>
          split at h
          next => exact ih _ _ _ _ _ _ h hspu hspq hspc hspb
          next => exact ih _ _ _ _ _ _ h hspu hspq hspc hspb

theorem addBottleneck_keys (r : BottleneckRecord) :
    ∀ (acc : List (String × Nat × Nat)) (cct : String × Nat × Nat),
      cct ∈ addBottleneck acc r → cct.1 ∈ acc.map Prod.fst ∨ cct.1 = r.constraint := by
  intro acc
  induction acc with
  | nil =>
    intro cct h
    simp only [addBottleneck, List.mem_singleton] at h
    right
    rw [h]
  | cons hd tl ih =>
    intro cct h
    obtain ⟨cs, cnt, tot⟩ := hd
    unfold addBottleneck at h
    by_cases hcs : cs = r.constraint
    · simp only [hcs, if_true] at h
      rcases List.mem_cons.mp h with hh | hh
      · left
        rw [hh, hcs]
        exact List.mem_cons_self _ _
      · left
        exact List.mem_cons_of_mem _ (List.mem_map_of_mem _ hh)
    · simp only [hcs, if_false] at h
      rcases List.mem_cons.mp h with hh | hh
      · left
        rw [hh]
        exact List.mem_cons_self _ _
      · rcases ih cct hh with hl | hr
        · exact Or.inl (List.mem_cons_of_mem _ hl)
        · exact Or.inr hr

theorem summarize_keys :
    ∀ (evs : List BottleneckRecord) (acc : List (String × Nat × Nat))
      (cct : String × Nat × Nat), cct ∈ evs.foldl addBottleneck acc →
      cct.1 ∈ acc.map Prod.fst ∨ ∃ r ∈ evs, cct.1 = r.constraint := by
  intro evs
  induction evs with
  | nil =>
    intro acc cct h
    left
    exact List.mem_map_of_mem _ h
  | cons r evs ih =>
    intro acc cct h
    rw [List.foldl_cons] at h
    rcases ih _ _ h with hl | hr
    · rcases List.mem_map.mp hl with ⟨y, hy, hxy⟩
      rcases addBottleneck_keys r acc y hy with hk | hk
      · left
        rw [← hxy]
        exact hk
      · right
        exact ⟨r, List.mem_cons_self _ _, by rw [← hxy]; exact hk⟩
    · obtain ⟨r2, hr2, heq⟩ := hr
      exact Or.inr ⟨r2, List.mem_cons_of_mem _ hr2, heq⟩

/-- Every entry of the ranked bottleneck list in the result bundle inherits
its constraint from some logged bottleneck record. -/
theorem results_bneck_constraint (s : EngineState) (b : BottleneckSummary)
    (hb : b ∈ (calculateResults s).bottlenecks) :
    ∃ r ∈ s.bottleneckEvents, b.constraint = r.constraint := by
  have hb2 : b ∈ (calculateResults s).bottlenecks := hb
  have htake : (calculateResults s).bottlenecks =
      (insertionSort (fun a b => decide (b.impact_score ≤ a.impact_score))
        ((summarizeBottlenecks s.bottleneckEvents).map fun cct =>
          { constraint := cct.1
            impact_score := (cct.2.1 : ℚ) / (max s.patientOutcomes.length 1 : ℚ)
            occurrences := cct.2.1
            avg_queue := if 0 < cct.2.1 then (cct.2.2 : ℚ) / (cct.2.1 : ℚ) else 0
            description := describeBottleneck cct.1 : BottleneckSummary })).take 5 := rfl
  rw [htake] at hb2
  have hb3 := List.take_subset 5 _ hb2
  have hb4 := (insertionSort_perm _ _).mem_iff.mp hb3
  rcases List.mem_map.mp hb4 with ⟨cct, hcct, hmk⟩
  rcases summarize_keys s.bottleneckEvents [] cct hcct with hl | hr
  · simp at hl
  · obtain ⟨r, hr2, heq⟩ := hr
    refine ⟨r, hr2, ?_⟩
    rw [← hmk]
    exact heq

/-- C9: the transport pool is never acquired in any completed run —
`transport_in_use` is 0 and `transport_queue` empty in the final state (and,
by `runLoop_transport`, in every state the loop passes through), and the
produced bottleneck list never contains a `transport_capacity` record, even
though the capacity is configured from `transport_capacity`. -/
theorem c9_transport_unused (p : Params) (g : Nat → Nat) (fuel : Nat)
    (s2 : EngineState) (cbs : List (ℚ × Int))
    (h : engineRunS p g fuel = some (s2, cbs)) :
    s2.transportInUse = 0 ∧ s2.transportQueue = [] ∧
    s2.transportCapacity = pyInt (p.transport_capacity.getD 1 * 2) ∧
    ∀ b ∈ (calculateResults s2).bottlenecks,
      b.constraint ≠ "transport_capacity" := by
  unfold engineRunS at h
  obtain ⟨hgp, hgb, hgn, hgbq, hgiq, hgtq, hgic, hgiu, hgtc, hgtu, hgct, hgts,
    hgto, hgtbq, hgtiq, hgtn, hgpo, hgbe⟩ :=
    runGenerateArrivals_genFrame g fuel (initState p)
  obtain ⟨h1, h2, h3, h4⟩ := runLoop_transport g
    (pyInt (p.transport_capacity.getD 1 * 2)) fuel _ 0 0 [] s2 cbs h
    (by rw [hgtu]; rfl) (by rw [hgtq]; rfl) (by rw [hgtc]; rfl)
    (by
      rw [hgbe]
      intro b hb
      rw [show (initState p).bottleneckEvents = [] from rfl] at hb
      exact absurd hb (List.not_mem_nil b))
  refine ⟨h1, h2, h3, ?_⟩
  intro b hb
  obtain ⟨r, hr, heq⟩ := results_bneck_constraint s2 b hb
  rcases h4 r hr with hh | hh | hh <;> (rw [heq, hh]; decide)

theorem c9_transport_unused_witness :
    engineRunS tinyParams tinyStream 2 = some (tinyFinalState, []) ∧
    (tinyFinalState.transportInUse = 0 ∧ tinyFinalState.transportQueue = [] ∧
     tinyFinalState.transportCapacity =
       pyInt (tinyParams.transport_capacity.getD 1 * 2) ∧
     ∀ b ∈ (calculateResults tinyFinalState).bottlenecks,
       b.constraint ≠ "transport_capacity") :=
  ⟨by with_unfolding_all decide,
   c9_transport_unused tinyParams tinyStream 2 tinyFinalState []
     (by with_unfolding_all decide)⟩

theorem mem_replayEvents (log : List EventRow) (u : Nat) (t : Int) (e : EventRow) :
    e ∈ replayEvents log u t ↔
      (e ∈ log ∧ e.unit_id = u ∧ t - 60 ≤ e.timestamp ∧ e.timestamp ≤ t) := by
  unfold replayEvents
  rw [(insertionSort_perm _ _).mem_iff, List.mem_filter]
  simp only [Bool.and_eq_true, decide_eq_true_eq]
  tauto

theorem range_filter_single (n a : Nat) (p : Nat → Bool)
    (hp : ∀ k, p k = true ↔ k = a) :
    ((List.range n).filter p).length = if a < n then 1 else 0 := by
  induction n with
  | zero => simp
  | succ n ih =>
    rw [List.range_succ, List.filter_append, List.length_append, ih]
    have hfn : (List.filter p [n]).length = if n = a then 1 else 0 := by
      by_cases hna : n = a
      · have hpt : p n = true := (hp n).mpr hna
        rw [if_pos hna]
        simp [List.filter, hpt]
      · have hpf : p n = false := by
          rw [← Bool.not_eq_true]
          intro hc
          exact hna ((hp n).mp hc)
        simp [List.filter, hpf, hna]
    rw [hfn]
    split_ifs <;> omega

theorem range_filter_pair (n a : Nat) (p : Nat → Bool)
    (hp : ∀ k, p k = true ↔ (k = a ∨ k = a + 1)) :
    ((List.range n).filter p).length =
      (if a < n then 1 else 0) + (if a + 1 < n then 1 else 0) := by
  induction n with
  | zero => simp
  | succ n ih =>
    rw [List.range_succ, List.filter_append, List.length_append, ih]
    have hfn : (List.filter p [n]).length =
        if n = a ∨ n = a + 1 then 1 else 0 := by
      by_cases hna : n = a ∨ n = a + 1
      · have hpt : p n = true := (hp n).mpr hna
        rw [if_pos hna]
        simp [List.filter, hpt]
      · have hpf : p n = false := by
          rw [← Bool.not_eq_true]
          intro hc
          exact hna ((hp n).mp hc)
        simp [List.filter, hpf, hna]
    rw [hfn]
    split_ifs <;> omega

/-- C3 (amended): for every persisted event of the streamed unit with
timestamp in the 24-hour horizon `[T, T + 86400]`, each tick at cursor
`t = T + 60k` carries exactly the events of the closed window
`[t - 60, t]` (the query uses `window_start ≤ timestamp ≤ t`, not the
half-open `(t - 60, t]`), and consequently an event whose offset from `T`
is a multiple of 60 below 86340 — including offset 0, delivered at ticks 0
and 1 — appears in two consecutive ticks; events in the open last minute
`(T + 86340, T + 86400]` are never delivered; every other event of the
horizon appears in exactly one tick. -/
theorem c3_replay_window_amended (beds : List BedRow) (log : List EventRow)
    (u : Nat) (T : Int) (e : EventRow) (he : e ∈ log) (hu : e.unit_id = u)
    (hlo : T ≤ e.timestamp) (hhi : e.timestamp ≤ T + 86400) :
    (∀ k : Nat, e ∈ replayEvents log u (replayTick T k) ↔
      (replayTick T k - 60 ≤ e.timestamp ∧ e.timestamp ≤ replayTick T k)) ∧
    (∀ k : Nat, e ∈ replayEvents log u (replayTick T k) →
      toMarker e ∈ tickMarkers beds log u T k) ∧
    (((List.range 1440).filter fun k =>
        decide (e ∈ replayEvents log u (replayTick T k))).length =
      if 86340 < e.timestamp - T then 0
      else if (60 ∣ (e.timestamp - T)) ∧ e.timestamp - T < 86340 then 2 else 1) := by
  have hmem : ∀ k : Nat, e ∈ replayEvents log u (replayTick T k) ↔
      (replayTick T k - 60 ≤ e.timestamp ∧ e.timestamp ≤ replayTick T k) := by
    intro k
    rw [mem_replayEvents]
    constructor
    · rintro ⟨_, _, h1, h2⟩
      exact ⟨h1, h2⟩
    · rintro ⟨h1, h2⟩
      exact ⟨he, hu, h1, h2⟩
  refine ⟨hmem, ?_, ?_⟩
  · intro k hk
    have : tickMarkers beds log u T k =
        (replayEvents log u (replayTick T k)).map toMarker := rfl
    rw [this]
    exact List.mem_map_of_mem _ hk
  · have hs0 : 0 ≤ e.timestamp - T := by omega
    have hqr : 60 * ((e.timestamp - T) / 60) + (e.timestamp - T) % 60 =
        e.timestamp - T := Int.ediv_add_emod _ _
    have hr0 : 0 ≤ (e.timestamp - T) % 60 := Int.emod_nonneg _ (by norm_num)
    have hr60 : (e.timestamp - T) % 60 < 60 := Int.emod_lt_of_pos _ (by norm_num)
    have hq0 : 0 ≤ (e.timestamp - T) / 60 := Int.ediv_nonneg hs0 (by norm_num)
    have hwin : ∀ k : Nat, e ∈ replayEvents log u (replayTick T k) ↔
        (e.timestamp - T ≤ 60 * (k : Int) ∧ 60 * (k : Int) ≤ e.timestamp - T + 60) := by
      intro k
      rw [hmem k]
      unfold replayTick
      omega
    by_cases hr : (e.timestamp - T) % 60 = 0
    · rw [range_filter_pair 1440 ((e.timestamp - T) / 60).toNat _ ?_]
      · split_ifs <;> omega
      · intro k
        rw [decide_eq_true_eq, hwin k]
        omega
    · rw [range_filter_single 1440 (((e.timestamp - T) / 60).toNat + 1) _ ?_]
      · split_ifs <;> omega
      · intro k
        rw [decide_eq_true_eq, hwin k]
        omega

/-- A replay log with one event exactly on the minute boundary `T + 60`. -/
def c3Event : EventRow := { id := 1, unit_id := 1, timestamp := 60, event_type := "arrival" }

theorem c3_replay_window_amended_witness :
    (c3Event ∈ [c3Event] ∧ c3Event.unit_id = 1 ∧ (0 : Int) ≤ c3Event.timestamp ∧
      c3Event.timestamp ≤ 0 + 86400) ∧
    ((∀ k : Nat, c3Event ∈ replayEvents [c3Event] 1 (replayTick 0 k) ↔
      (replayTick 0 k - 60 ≤ c3Event.timestamp ∧
        c3Event.timestamp ≤ replayTick 0 k)) ∧
    (∀ k : Nat, c3Event ∈ replayEvents [c3Event] 1 (replayTick 0 k) →
      toMarker c3Event ∈ tickMarkers [] [c3Event] 1 0 k) ∧
    (((List.range 1440).filter fun k =>
        decide (c3Event ∈ replayEvents [c3Event] 1 (replayTick 0 k))).length =
      if 86340 < c3Event.timestamp - 0 then 0
      else if (60 ∣ (c3Event.timestamp - 0)) ∧ c3Event.timestamp - 0 < 86340 then 2
      else 1)) :=
  ⟨⟨List.mem_singleton_self _, rfl, by with_unfolding_all decide,
      by with_unfolding_all decide⟩,
   c3_replay_window_amended [] [c3Event] 1 0 c3Event (List.mem_singleton_self _) rfl
     (by with_unfolding_all decide) (by with_unfolding_all decide)⟩

/-- C3 counterexample: the event at timestamp `T + 60` (with `T = 0`) is
delivered both in tick 1 and in tick 2, although it lies outside the claimed
half-open window `(t - 60, t]` of tick 2 — so a tick's markers are not the
half-open-window events, and a boundary event appears in two ticks. -/
theorem c3_counterexample :
    c3Event ∈ replayEvents [c3Event] 1 (replayTick 0 1) ∧
    c3Event ∈ replayEvents [c3Event] 1 (replayTick 0 2) ∧
    ¬ (replayTick 0 2 - 60 < c3Event.timestamp) := by
  refine ⟨?_, ?_, ?_⟩ <;> with_unfolding_all decide

/-! C10 infrastructure: every record of `self.patient_outcomes` belongs to a
patient whose `discharge_time` has been stamped by `_handle_discharge`.  The
invariant is threaded through the main loop together with key-consistency of
the patients dict and freshness of the arrival ids still in the queue. -/

/-- The entity ids of the arrival events of an event list. -/
def arrIds (l : List SimEvent) : List Nat :=
  (l.filter fun e => decide (e.event_type = SimEventType.arrival)).map SimEvent.entity_id

theorem arrIds_perm {l l' : List SimEvent} (h : l.Perm l') :
    (arrIds l).Perm (arrIds l') :=
  (h.filter _).map _

theorem arrIds_cons_arrival (e : SimEvent)
    (he : e.event_type = SimEventType.arrival) (l : List SimEvent) :
    arrIds (e :: l) = e.entity_id :: arrIds l := by
  simp [arrIds, List.filter_cons, he]

theorem arrIds_cons_ne (e : SimEvent)
    (he : ¬ e.event_type = SimEventType.arrival) (l : List SimEvent) :
    arrIds (e :: l) = arrIds l := by
  simp [arrIds, List.filter_cons, he]

theorem arrIds_heappush_ne (l : List SimEvent) (e : SimEvent)
    (he : ¬ e.event_type = SimEventType.arrival) :
    (arrIds (heappush SimEvent.lt l e)).Perm (arrIds l) := by
  have h := arrIds_perm (heappush_perm SimEvent.lt l e)
  rwa [arrIds_cons_ne e he l] at h

/-- Every outcome record points at a stored patient whose discharge has been
stamped. -/
def discharged (outs : List PatientOutcome) (pats : List (Nat × SimPatient)) : Prop :=
  ∀ o ∈ outs, ∃ q, dictGet pats o.patient_id = some q ∧
    q.discharge_time.isSome = true

/-- The patients dict maps each key to a patient bearing that id (the source
always writes `self.patients[patient.id] = patient`). -/
def keyConsistent (pats : List (Nat × SimPatient)) : Prop :=
  ∀ k q, dictGet pats k = some q → q.id = k

/-- The loop invariant behind C10. -/
def dischargeInv (s : EngineState) : Prop :=
  discharged s.patientOutcomes s.patients ∧ keyConsistent s.patients ∧
  (arrIds s.eventQueue).Nodup ∧
  ∀ i ∈ arrIds s.eventQueue, dictGet s.patients i = none

theorem discharged_dictSet {outs : List PatientOutcome}
    {pats : List (Nat × SimPatient)} (h : discharged outs pats) (k : Nat)
    (v : SimPatient)
    (hv : ∀ q0, dictGet pats k = some q0 → q0.discharge_time.isSome = true →
      v.discharge_time.isSome = true) :
    discharged outs (dictSet pats k v) := by
  intro o ho
  obtain ⟨q, hq, hd⟩ := h o ho
  by_cases hk : o.patient_id = k
  · subst hk
    exact ⟨v, dictGet_dictSet_self pats o.patient_id v, hv q hq hd⟩
  · refine ⟨q, ?_, hd⟩
    rw [dictGet_dictSet_ne pats k o.patient_id v hk]
    exact hq

theorem keyConsistent_dictSet {pats : List (Nat × SimPatient)}
    (h : keyConsistent pats) (k : Nat) (v : SimPatient) (hvid : v.id = k) :
    keyConsistent (dictSet pats k v) := by
  intro k' q hq
  by_cases hk : k' = k
  · subst hk
    rw [dictGet_dictSet_self] at hq
    injection hq with h2
    rw [← h2]
    exact hvid
  · rw [dictGet_dictSet_ne pats k k' v hk] at hq
    exact h k' q hq

/-- Overwriting an existing key with a record of the same id whose discharge
stamp is not erased preserves the invariant. -/
theorem dischargeInv_setExisting (s : EngineState) (k : Nat) (p v : SimPatient)
    (hinv : dischargeInv s) (hp : dictGet s.patients k = some p) (hvid : v.id = k)
    (hvd : p.discharge_time.isSome = true → v.discharge_time.isSome = true) :
    dischargeInv { s with patients := dictSet s.patients k v } := by
  obtain ⟨houts, hkey, hnd, hnone⟩ := hinv
  refine ⟨?_, keyConsistent_dictSet hkey k v hvid, hnd, ?_⟩
  · refine discharged_dictSet houts k v ?_
    intro q0 hq0 hq0d
    rw [hp] at hq0
    injection hq0 with h2
    rw [← h2] at hq0d
    exact hvd hq0d
  · intro i hi
    have hni := hnone i hi
    have hne : i ≠ k := by
      intro he
      rw [he, hp] at hni
      exact Option.noConfusion hni
    rw [dictGet_dictSet_ne s.patients k i v hne]
    exact hni

/-- Replacing the queue by one with the same arrival ids (up to permutation)
preserves the invariant. -/
theorem dischargeInv_queuePerm (s : EngineState) (q' : List SimEvent)
    (hinv : dischargeInv s) (hq : (arrIds q').Perm (arrIds s.eventQueue)) :
    dischargeInv { s with eventQueue := q' } := by
  obtain ⟨houts, hkey, hnd, hnone⟩ := hinv
  exact ⟨houts, hkey, hq.nodup_iff.mpr hnd, fun i hi => hnone i (hq.mem_iff.mp hi)⟩

theorem dischargeInv_collect (s : EngineState) (h : dischargeInv s) :
    dischargeInv (collectMetrics s) := by
  obtain ⟨houts, hkey, hnd, hnone⟩ := h
  obtain ⟨_, _, _, _, _, _, ho, hp, hq⟩ := collectMetrics_effects s
  refine ⟨?_, ?_, ?_, ?_⟩
  · rw [ho, hp]
    exact houts
  · rw [hp]
    exact hkey
  · rw [hq]
    exact hnd
  · intro i hi
    rw [hq] at hi
    rw [hp]
    exact hnone i hi

theorem assignNurse_chars (s : EngineState) (p : SimPatient) (t : ℚ) :
    (assignNurse s p t).1.patients = s.patients ∧
    (assignNurse s p t).1.patientOutcomes = s.patientOutcomes ∧
    (assignNurse s p t).1.eventQueue = s.eventQueue ∧
    (assignNurse s p t).2.id = p.id ∧
    (assignNurse s p t).2.discharge_time = p.discharge_time := by
  unfold assignNurse
  split
  · exact ⟨rfl, rfl, rfl, rfl, rfl⟩
  · exact ⟨rfl, rfl, rfl, rfl, rfl⟩

theorem assignBed_chars (g : Nat → Nat) (s0 : EngineState) (p : SimPatient)
    (bid : Nat) (t : ℚ) :
    (∃ p2 : SimPatient, p2.id = p.id ∧ p2.discharge_time = p.discharge_time ∧
      (assignBed g s0 p bid t).patients = dictSet s0.patients p2.id p2) ∧
    (assignBed g s0 p bid t).patientOutcomes = s0.patientOutcomes ∧
    (arrIds (assignBed g s0 p bid t).eventQueue).Perm (arrIds s0.eventQueue) := by
  obtain ⟨hn1, hn2, hn3, hn4, hn5⟩ := assignNurse_chars
    { s0 with beds := updateBed s0.beds bid fun b =>
        { b with is_occupied := true, patient_id := some p.id } }
    { p with bed_id := some bid, bed_assigned_time := some t } t
  have hq1 : (assignNurse _ _ t).1.patients = s0.patients := hn1
  have hq2 : (assignNurse _ _ t).1.patientOutcomes = s0.patientOutcomes := hn2
  have hq3 : arrIds (assignNurse _ _ t).1.eventQueue = arrIds s0.eventQueue :=
    congrArg arrIds hn3
  unfold assignBed
  dsimp only
  refine ⟨⟨_, hn4, hn5, ?_⟩, ?_, ?_⟩
  · split <;> split <;> (dsimp only; rw [hq1])
  · split <;> split <;> (dsimp only; rw [hq2])
  · split <;> split <;> dsimp only
    all_goals first
      | exact (arrIds_heappush_ne _ _ (fun hc => SimEventType.noConfusion hc)).trans
          ((arrIds_heappush_ne _ _ (fun hc => SimEventType.noConfusion hc)).trans
            (List.Perm.of_eq hq3))
      | exact (arrIds_heappush_ne _ _ (fun hc => SimEventType.noConfusion hc)).trans
          (List.Perm.of_eq hq3)
      | exact List.Perm.of_eq hq3

theorem assignBed_dinv (g : Nat → Nat) (s0 : EngineState) (p : SimPatient)
    (bid : Nat) (t : ℚ) (hinv : dischargeInv s0)
    (hex : ∃ q0, dictGet s0.patients p.id = some q0 ∧
      q0.discharge_time = p.discharge_time) :
    dischargeInv (assignBed g s0 p bid t) := by
  obtain ⟨houts, hkey, hnd, hnone⟩ := hinv
  obtain ⟨q0, hq0, hq0d⟩ := hex
  obtain ⟨⟨p2, hid, hdis, hpats⟩, houtseq, hqperm⟩ := assignBed_chars g s0 p bid t
  refine ⟨?_, ?_, ?_, ?_⟩
  · rw [houtseq, hpats]
    refine discharged_dictSet houts p2.id p2 ?_
    intro q1 hq1 hq1d
    rw [hid, hq0] at hq1
    injection hq1 with h2
    rw [← h2] at hq1d
    rw [hdis, ← hq0d]
    exact hq1d
  · rw [hpats]
    exact keyConsistent_dictSet hkey p2.id p2 rfl
  · exact hqperm.nodup_iff.mpr hnd
  · intro i hi
    have hi' := hqperm.mem_iff.mp hi
    have hni := hnone i hi'
    rw [hpats]
    refine (dictGet_dictSet_ne s0.patients p2.id i p2 ?_).trans hni
    intro he
    rw [he, hid, hq0] at hni
    exact Option.noConfusion hni

theorem requestBed_dinv (g : Nat → Nat) (s1 : EngineState) (pid : Nat) (t : ℚ)
    (s2 : EngineState) (h : requestBed g s1 pid t = some s2)
    (hinv : dischargeInv s1) : dischargeInv s2 := by
  unfold requestBed at h
  dsimp only at h
  split at h
  · exact Option.noConfusion h
  · next p hp =>
    split at h
    · next bed hbed =>
      rw [Option.some.injEq] at h
      subst h
      have hpid : p.id = pid := hinv.2.1 pid p hp
      refine assignBed_dinv g s1 p bed.id t hinv ⟨p, ?_, rfl⟩
      rw [hpid]
      exact hp
    · next hbed =>
      rw [Option.some.injEq] at h
      subst h
      obtain ⟨houts, hkey, hnd, hnone⟩ := hinv
      exact ⟨houts, hkey, hnd, hnone⟩

theorem handleArrival_dinv (g : Nat → Nat) (s1 : EngineState) (ev : SimEvent)
    (s2 : EngineState) (h : handleArrival g s1 ev = some s2)
    (hinv : dischargeInv s1) (hfresh : dictGet s1.patients ev.entity_id = none)
    (hnotin : ev.entity_id ∉ arrIds s1.eventQueue) : dischargeInv s2 := by
  obtain ⟨houts, hkey, hnd, hnone⟩ := hinv
  unfold handleArrival at h
  dsimp only at h
  split at h
  · rw [Option.some.injEq] at h
    subst h
    refine ⟨?_, ?_, ?_, ?_⟩
    · refine discharged_dictSet houts _ _ ?_
      intro q0 hq0 _
      rw [hfresh] at hq0
      exact Option.noConfusion hq0
    · exact keyConsistent_dictSet hkey _ _ rfl
    · exact (arrIds_heappush_ne _ _ (fun hc => SimEventType.noConfusion hc)).nodup_iff.mpr hnd
    · intro i hi
      have hi' := (arrIds_heappush_ne _ _
        (fun hc => SimEventType.noConfusion hc)).mem_iff.mp hi
      refine (dictGet_dictSet_ne s1.patients _ i _ ?_).trans (hnone i hi')
      intro he
      exact hnotin (he ▸ hi')
  · exact Option.noConfusion h

theorem handleTriageEnd_dinv (g : Nat → Nat) (s1 : EngineState) (ev : SimEvent)
    (s2 : EngineState) (h : handleTriageEnd g s1 ev = some s2)
    (hinv : dischargeInv s1) : dischargeInv s2 := by
  unfold handleTriageEnd at h
  dsimp only at h
  split at h
  · exact Option.noConfusion h
  · next p hp =>
    have hpid : p.id = ev.entity_id := hinv.2.1 ev.entity_id p hp
    refine requestBed_dinv g _ _ _ s2 h ?_
    refine dischargeInv_setExisting s1 p.id p _ hinv ?_ rfl (fun x => x)
    rw [hpid]
    exact hp

theorem handleImagingRequest_dinv (g : Nat → Nat) (s1 : EngineState)
    (ev : SimEvent) (s2 : EngineState) (h : handleImagingRequest g s1 ev = some s2)
    (hinv : dischargeInv s1) : dischargeInv s2 := by
  unfold handleImagingRequest at h
  dsimp only at h
  split at h
  · split at h
    · exact Option.noConfusion h
    · next p hp =>
      rw [Option.some.injEq] at h
      subst h
      have h1 := dischargeInv_setExisting s1 ev.entity_id p
        { p with imaging_start_time := some ev.time } hinv hp
        (hinv.2.1 ev.entity_id p hp) (fun x => x)
      exact dischargeInv_queuePerm _ _ h1
        (arrIds_heappush_ne _ _ (fun hc => SimEventType.noConfusion hc))
  · rw [Option.some.injEq] at h
    subst h
    obtain ⟨houts, hkey, hnd, hnone⟩ := hinv
    exact ⟨houts, hkey, hnd, hnone⟩

theorem handleImagingEnd_dinv (g : Nat → Nat) (s1 : EngineState) (ev : SimEvent)
    (s2 : EngineState) (h : handleImagingEnd g s1 ev = some s2)
    (hinv : dischargeInv s1) : dischargeInv s2 := by
  unfold handleImagingEnd at h
  dsimp only at h
  split at h
  · exact Option.noConfusion h
  · next p hp =>
    have h1 := dischargeInv_setExisting s1 ev.entity_id p
      { p with imaging_end_time := some ev.time } hinv hp
      (hinv.2.1 ev.entity_id p hp) (fun x => x)
    split at h
    · next hq =>
      rw [Option.some.injEq] at h
      subst h
      exact h1
    · next nextId restQ hq =>
      split at h
      · exact Option.noConfusion h
      · next np hnp =>
        rw [Option.some.injEq] at h
        subst h
        have h2 := dischargeInv_setExisting _ nextId np
          { np with imaging_start_time := some ev.time } h1 hnp
          (h1.2.1 nextId np hnp) (fun x => x)
        exact dischargeInv_queuePerm _ _ h2
          (arrIds_heappush_ne _ _ (fun hc => SimEventType.noConfusion hc))

theorem freeBedOnDischarge_dinv (g : Nat → Nat) (sa : EngineState)
    (p : SimPatient) (t : ℚ) (sb : EngineState)
    (h : freeBedOnDischarge g sa p t = some sb) (hinv : dischargeInv sa) :
    dischargeInv sb ∧ sb.patients = sa.patients ∧
      sb.patientOutcomes = sa.patientOutcomes := by
  unfold freeBedOnDischarge at h
  dsimp only at h
  split at h
  · split at h
    · exact Option.noConfusion h
    · next bfound hfound =>
      rw [Option.some.injEq] at h
      subst h
      refine ⟨?_, rfl, rfl⟩
      exact dischargeInv_queuePerm _ _ hinv
        (arrIds_heappush_ne _ _ (fun hc => SimEventType.noConfusion hc))
  · rw [Option.some.injEq] at h
    subst h
    exact ⟨hinv, rfl, rfl⟩

theorem freeNurseOnDischarge_dinv (sa : EngineState) (p : SimPatient)
    (sb : EngineState) (h : freeNurseOnDischarge sa p = some sb)
    (hinv : dischargeInv sa) :
    dischargeInv sb ∧ sb.patients = sa.patients ∧
      sb.patientOutcomes = sa.patientOutcomes := by
  unfold freeNurseOnDischarge at h
  try dsimp only at h
  repeat' split at h
  all_goals first
    | (rw [Option.some.injEq] at h
       subst h
       exact ⟨hinv, rfl, rfl⟩)
    | exact Option.noConfusion h

theorem handleDischarge_dinv (g : Nat → Nat) (s1 : EngineState) (ev : SimEvent)
    (s2 : EngineState) (h : handleDischarge g s1 ev = some s2)
    (hinv : dischargeInv s1) : dischargeInv s2 := by
  unfold handleDischarge at h
  dsimp only at h
  split at h
  · exact Option.noConfusion h
  · next p0 hp0 =>
    split at h
    · exact Option.noConfusion h
    · next s3 hfb =>
      split at h
      · exact Option.noConfusion h
      · next s4 hfn =>
        rw [Option.some.injEq] at h
        subst h
        have hpid : p0.id = ev.entity_id := hinv.2.1 ev.entity_id p0 hp0
        have h1 := dischargeInv_setExisting s1 p0.id p0
          { p0 with discharge_time := some ev.time } hinv
          (by rw [hpid]; exact hp0) rfl (fun _ => rfl)
        obtain ⟨hinv3, hp3, ho3⟩ := freeBedOnDischarge_dinv g _ _ _ _ hfb h1
        obtain ⟨hinv4, hp4, ho4⟩ := freeNurseOnDischarge_dinv _ _ _ hfn hinv3
        obtain ⟨houts4, hkey4, hnd4, hnone4⟩ := hinv4
        refine ⟨?_, hkey4, hnd4, hnone4⟩
        intro o ho
        rcases List.mem_append.mp ho with ho | ho
        · exact houts4 o ho
        · simp only [List.mem_singleton] at ho
          subst ho
          refine ⟨{ p0 with discharge_time := some ev.time }, ?_, rfl⟩
          show dictGet s4.patients p0.id = some { p0 with discharge_time := some ev.time }
          rw [hp4, hp3]
          exact dictGet_dictSet_self s1.patients p0.id _

theorem handleCleaningEnd_dinv (g : Nat → Nat) (s1 : EngineState) (ev : SimEvent)
    (s2 : EngineState) (h : handleCleaningEnd g s1 ev = some s2)
    (hinv : dischargeInv s1) : dischargeInv s2 := by
  unfold handleCleaningEnd at h
  dsimp only at h
  split at h
  · exact Option.noConfusion h
  · next bid hbid =>
    split at h
    · exact Option.noConfusion h
    · next bfound hfound =>
      split at h
      · next hq =>
        rw [Option.some.injEq] at h
        subst h
        exact hinv
      · next pid restQ hq =>
        split at h
        · exact Option.noConfusion h
        · next p hpfound =>
          rw [Option.some.injEq] at h
          subst h
          have hpid : p.id = pid := hinv.2.1 pid p hpfound
          refine assignBed_dinv g _ p bid ev.time hinv ⟨p, ?_, rfl⟩
          rw [hpid]
          exact hpfound

/-- Popping an event from the queue (and advancing the clock) preserves the
invariant. -/
theorem dinv_afterPop (s : EngineState) (ev : SimEvent) (rest : List SimEvent)
    (hperm : s.eventQueue.Perm (ev :: rest)) (hinv : dischargeInv s) (tq : ℚ) :
    dischargeInv { s with eventQueue := rest, currentTime := tq } := by
  obtain ⟨houts, hkey, hnd, hnone⟩ := hinv
  have hpa := arrIds_perm hperm
  by_cases ha : ev.event_type = SimEventType.arrival
  · rw [arrIds_cons_arrival ev ha rest] at hpa
    have hndc := hpa.nodup_iff.mp hnd
    refine ⟨houts, hkey, (List.nodup_cons.mp hndc).2, ?_⟩
    intro i hi
    exact hnone i (hpa.mem_iff.mpr (List.mem_cons_of_mem _ hi))
  · rw [arrIds_cons_ne ev ha rest] at hpa
    exact ⟨houts, hkey, hpa.nodup_iff.mp hnd,
      fun i hi => hnone i (hpa.mem_iff.mpr hi)⟩

/-- A popped arrival is fresh: its id is not a patients-dict key and no other
queued arrival carries it. -/
theorem dinv_afterPop_arr (s : EngineState) (ev : SimEvent)
    (rest : List SimEvent) (hperm : s.eventQueue.Perm (ev :: rest))
    (hinv : dischargeInv s) (ha : ev.event_type = SimEventType.arrival) :
    dictGet s.patients ev.entity_id = none ∧ ev.entity_id ∉ arrIds rest := by
  obtain ⟨houts, hkey, hnd, hnone⟩ := hinv
  have hpa := arrIds_perm hperm
  rw [arrIds_cons_arrival ev ha rest] at hpa
  have hndc := hpa.nodup_iff.mp hnd
  exact ⟨hnone _ (hpa.mem_iff.mpr (List.mem_cons_self _ _)),
    (List.nodup_cons.mp hndc).1⟩

theorem processEvent_dinv (g : Nat → Nat) (s : EngineState) (ev : SimEvent)
    (rest : List SimEvent) (hperm : s.eventQueue.Perm (ev :: rest))
    (hinv : dischargeInv s) (s2 : EngineState)
    (h : processEvent g { s with eventQueue := rest, currentTime := ev.time } ev =
      some s2) :
    dischargeInv s2 := by
  have hbase := dinv_afterPop s ev rest hperm hinv ev.time
  unfold processEvent at h
  cases hty : ev.event_type <;> rw [hty] at h <;> dsimp only at h
  case arrival =>
    obtain ⟨hfr, hni⟩ := dinv_afterPop_arr s ev rest hperm hinv hty
    exact handleArrival_dinv g _ ev s2 h hbase hfr hni
  case triage_end => exact handleTriageEnd_dinv g _ ev s2 h hbase
  case imaging_request => exact handleImagingRequest_dinv g _ ev s2 h hbase
  case imaging_end => exact handleImagingEnd_dinv g _ ev s2 h hbase
  case discharge => exact handleDischarge_dinv g _ ev s2 h hbase
  case cleaning_end => exact handleCleaningEnd_dinv g _ ev s2 h hbase
  all_goals
    rw [Option.some.injEq] at h
  all_goals
    subst h
  all_goals
    exact hbase

theorem runLoop_dinv (g : Nat → Nat) :
    ∀ (fuel : Nat) (s : EngineState) (lm : ℚ) (lp : Int) (acc : List (ℚ × Int))
      (s2 : EngineState) (cbs : List (ℚ × Int)),
      runLoop g fuel s lm lp acc = some (s2, cbs) →
      dischargeInv s → dischargeInv s2 := by
  intro fuel
  induction fuel with
  | zero =>
    intro s lm lp acc s2 cbs h hinv
    unfold runLoop at h
    split at h
    · rw [Option.some.injEq, Prod.mk.injEq] at h
      rw [← h.1]
      exact hinv
    · exact Option.noConfusion h
  | succ fuel ih =>
    intro s lm lp acc s2 cbs h hinv
    unfold runLoop at h
    split at h
    next =>
      rw [Option.some.injEq, Prod.mk.injEq] at h
      rw [← h.1]
      exact hinv
    next evq hpop =>
      dsimp only at h
      split at h
      next => exact Option.noConfusion h
      next sp hproc =>
        have hperm := heappop_perm SimEvent.lt s.eventQueue evq.1 evq.2 hpop
        have hinv2 : dischargeInv sp :=
          processEvent_dinv g s evq.1 evq.2 hperm hinv sp hproc
        split at h
        next hcollect =>
          have hinv3 : dischargeInv (collectMetrics sp) :=
            dischargeInv_collect sp hinv2
          split at h
          next => exact ih _ _ _ _ _ _ h hinv3
          next => exact ih _ _ _ _ _ _ h hinv3
        next hcollect =>
          split at h
          next => exact ih _ _ _ _ _ _ h hinv2
          next => exact ih _ _ _ _ _ _ h hinv2

/-- Arrival generation produces pairwise distinct arrival ids, all bounded by
the running patient counter. -/
theorem generateArrivals_arrIds (g : Nat → Nat) :
    ∀ (fuel : Nat) (s : EngineState) (ca rate : ℚ) (mix : List Acuity),
      (arrIds s.eventQueue).Nodup →
      (∀ i ∈ arrIds s.eventQueue, i ≤ s.patientCounter) →
      (arrIds (generateArrivals g fuel s ca rate mix).eventQueue).Nodup ∧
      ∀ i ∈ arrIds (generateArrivals g fuel s ca rate mix).eventQueue,
        i ≤ (generateArrivals g fuel s ca rate mix).patientCounter := by
  intro fuel
  induction fuel with
  | zero =>
    intro s ca rate mix hnd hbd
    exact ⟨hnd, hbd⟩
  | succ fuel ih =>
    intro s ca rate mix hnd hbd
    unfold generateArrivals
    dsimp only
    split
    · split
      · exact ⟨hnd, hbd⟩
      · refine ih _ _ _ _ ?_ ?_
        · dsimp only
          refine ((arrIds_perm
            (heappush_perm SimEvent.lt s.eventQueue _)).nodup_iff).mpr ?_
          have hni : (s.patientCounter + 1) ∉ arrIds s.eventQueue := by
            intro hc
            have hle := hbd _ hc
            omega
          exact List.nodup_cons.mpr ⟨hni, hnd⟩
        · dsimp only
          intro i hi
          have hi' := ((arrIds_perm
            (heappush_perm SimEvent.lt s.eventQueue _)).mem_iff).mp hi
          rcases List.mem_cons.mp hi' with hh | hh
          · rw [hh]
          · have hle := hbd i hh
            omega
    · exact ⟨hnd, hbd⟩

/-- The state entering the main loop satisfies the C10 invariant. -/
theorem engineStart_dinv (p : Params) (g : Nat → Nat) (fuel : Nat) :
    dischargeInv (runGenerateArrivals g fuel (initState p)) := by
  have hgen := runGenerateArrivals_genFrame g fuel (initState p)
  have hpat : (runGenerateArrivals g fuel (initState p)).patients = [] := by
    rw [hgen.1]
    rfl
  have hout : (runGenerateArrivals g fuel (initState p)).patientOutcomes = [] := by
    rw [hgen.2.2.2.2.2.2.2.2.2.2.2.2.2.2.2.2.1]
    rfl
  obtain ⟨hnd, _⟩ := generateArrivals_arrIds g fuel (initState p) 0
    ((25/2 : ℚ) * (initState p).params.arrival_multiplier.getD 1)
    (((initState p).params.acuity_mix.getD defaultAcuityMix).map Prod.fst)
    List.nodup_nil (fun i hi => absurd hi (List.not_mem_nil i))
  refine ⟨?_, ?_, hnd, ?_⟩
  · rw [hout]
    intro o ho
    exact absurd ho (List.not_mem_nil o)
  · rw [hpat]
    intro k q hq
    exact Option.noConfusion hq
  · intro i hi
    rw [hpat]
    rfl

/-- C10: the outcome-derived metrics of a run (`total_patients`,
avg/median/max wait, `avg_los_minutes`, `sla_breaches`) are computed from
`patient_outcomes` alone; every outcome record belongs to a patient whose
`discharge_time` was stamped by a discharge event that fired within the
horizon, and a patient never discharged — one who never received a bed, or
still occupies one at horizon end — contributes no outcome record, hence no
wait-time sample and no SLA breach, regardless of how long they waited. -/
theorem c10_outcomes_only_discharged (p : Params) (g : Nat → Nat) (fuel : Nat)
    (st : EngineState) (cbs : List (ℚ × Int))
    (h : engineRunS p g fuel = some (st, cbs)) :
    (∀ o ∈ st.patientOutcomes, ∃ q, dictGet st.patients o.patient_id = some q ∧
      q.discharge_time.isSome = true) ∧
    (∀ pid q, dictGet st.patients pid = some q → q.discharge_time = none →
      ∀ o ∈ st.patientOutcomes, o.patient_id ≠ pid) ∧
    (calculateResults st).metrics_total_patients = st.patientOutcomes.length ∧
    (calculateResults st).metrics_sla_breaches =
      ((st.patientOutcomes.filterMap fun o => o.wait_time).filter
        fun w => decide (60 < w)).length ∧
    (calculateResults st).metrics_avg_wait_time_minutes =
      (if (st.patientOutcomes.filterMap fun o => o.wait_time).isEmpty then 0
        else meanQ (st.patientOutcomes.filterMap fun o => o.wait_time)) ∧
    (calculateResults st).metrics_median_wait_time_minutes =
      (if (st.patientOutcomes.filterMap fun o => o.wait_time).isEmpty then 0
        else medianQ (st.patientOutcomes.filterMap fun o => o.wait_time)) ∧
    (calculateResults st).metrics_max_wait_time_minutes =
      (if (st.patientOutcomes.filterMap fun o => o.wait_time).isEmpty then 0
        else maxQ (st.patientOutcomes.filterMap fun o => o.wait_time)) ∧
    (calculateResults st).metrics_avg_los_minutes =
      (if (st.patientOutcomes.filterMap fun o => o.los).isEmpty then 0
        else meanQ (st.patientOutcomes.filterMap fun o => o.los)) := by
  unfold engineRunS at h
  have hinv := runLoop_dinv g fuel _ 0 0 [] st cbs h (engineStart_dinv p g fuel)
  obtain ⟨houts, _, _, _⟩ := hinv
  refine ⟨houts, ?_, rfl, rfl, rfl, rfl, rfl, rfl⟩
  intro pid q hq hqn o ho hop
  obtain ⟨q', hq', hd⟩ := houts o ho
  rw [hop, hq] at hq'
  injection hq' with he
  rw [← he] at hd
  rw [hqn] at hd
  exact Bool.noConfusion hd

theorem c10_outcomes_only_discharged_witness :
    engineRunS tinyParams tinyStream 2 = some (tinyFinalState, []) ∧
    ((∀ o ∈ tinyFinalState.patientOutcomes,
        ∃ q, dictGet tinyFinalState.patients o.patient_id = some q ∧
          q.discharge_time.isSome = true) ∧
     (∀ pid q, dictGet tinyFinalState.patients pid = some q →
        q.discharge_time = none →
        ∀ o ∈ tinyFinalState.patientOutcomes, o.patient_id ≠ pid) ∧
     (calculateResults tinyFinalState).metrics_total_patients =
       tinyFinalState.patientOutcomes.length ∧
     (calculateResults tinyFinalState).metrics_sla_breaches =
       ((tinyFinalState.patientOutcomes.filterMap fun o => o.wait_time).filter
         fun w => decide (60 < w)).length ∧
     (calculateResults tinyFinalState).metrics_avg_wait_time_minutes =
       (if (tinyFinalState.patientOutcomes.filterMap fun o => o.wait_time).isEmpty
         then 0
         else meanQ (tinyFinalState.patientOutcomes.filterMap fun o => o.wait_time)) ∧
     (calculateResults tinyFinalState).metrics_median_wait_time_minutes =
       (if (tinyFinalState.patientOutcomes.filterMap fun o => o.wait_time).isEmpty
         then 0
         else medianQ (tinyFinalState.patientOutcomes.filterMap fun o => o.wait_time)) ∧
     (calculateResults tinyFinalState).metrics_max_wait_time_minutes =
       (if (tinyFinalState.patientOutcomes.filterMap fun o => o.wait_time).isEmpty
         then 0
         else maxQ (tinyFinalState.patientOutcomes.filterMap fun o => o.wait_time)) ∧
     (calculateResults tinyFinalState).metrics_avg_los_minutes =
       (if (tinyFinalState.patientOutcomes.filterMap fun o => o.los).isEmpty then 0
         else meanQ (tinyFinalState.patientOutcomes.filterMap fun o => o.los))) :=
  ⟨by with_unfolding_all decide,
   c10_outcomes_only_discharged tinyParams tinyStream 2 tinyFinalState []
     (by with_unfolding_all decide)⟩

/-- A concrete state for instantiating `c6_request_bed`: bed 1 is occupied,
bed 2 is free, patient 7 requests a bed at time 50. -/
def c6State : EngineState :=
  { params := {}
    patients := [(7, { id := 7, acuity := .low, arrival_time := 0 })]
    beds := [{ id := 1, is_occupied := true }, { id := 2 }] }

theorem c6_request_bed_witness :
    (dictGet c6State.patients 7 =
        some { id := 7, acuity := .low, arrival_time := 0 } ∧
      List.Pairwise (fun a b : SimBed => a.id < b.id) c6State.beds ∧
      c6State.beds.find? (fun b => bedFree b 50) = some { id := 2 }) ∧
    (requestBed (fun _ => 0) c6State 7 50 =
        some (assignBed (fun _ => 0) c6State
          { id := 7, acuity := .low, arrival_time := 0 } 2 50) ∧
      ∀ b ∈ c6State.beds, bedFree b 50 = true → ({ id := 2 } : SimBed).id ≤ b.id) :=
  ⟨⟨rfl, by with_unfolding_all decide, by with_unfolding_all decide⟩,
   (c6_request_bed (fun _ => 0) c6State 7 50
      { id := 7, acuity := .low, arrival_time := 0 } rfl
      (by with_unfolding_all decide)).1 { id := 2 } (by with_unfolding_all decide)⟩

theorem c8_speed_amended_witness :
    ((subscribeSpeed 1).isSome ∧
      ∀ v : ℚ, ReplayAction.setSpeed v ∉ [ReplayAction.pause, ReplayAction.play]) ∧
    (speedAfter 1 [ReplayAction.pause, ReplayAction.play] = 1 ∧
      1/10 ≤ speedAfter 1 [ReplayAction.pause, ReplayAction.play] ∧
      speedAfter 1 [ReplayAction.pause, ReplayAction.play] ≤ 10 ∧
      ∀ v : ℚ, speedAfter 1
        ([ReplayAction.pause, ReplayAction.play] ++ [ReplayAction.setSpeed v]) = v) :=
  ⟨⟨by with_unfolding_all decide, fun v => by simp⟩,
   c8_speed_amended 1 [ReplayAction.pause, ReplayAction.play] (by with_unfolding_all decide)
     (fun v => by simp)⟩

end WardOps
